import Mathlib

/-!
# BackgroundBeams (src/src/App.jsx, lines 77-220)

A shallow embedding of the canvas light-beam renderer of `App.jsx`.

Modelling conventions.

* JavaScript numbers are elements of an arbitrary linearly ordered field `K`
  (exact arithmetic; instantiate `K := ℚ` to evaluate, `K := ℝ` for the ideal
  semantics).  The functions `createBeam64`, `resetBeam64` and `ascend64`
  are the same expressions with every operation rounded to binary64, over `ℚ`.
* `Math.random()` is a stream of draws with a cursor (`Rng`); every call reads
  the draw under the cursor and advances it.
* `Math.sin`, `Math.PI` and the conversion that the canvas element applies to
  an assigned `width` or `height` (an `unsigned long`) are host values, passed
  as a record `JsMath`.
* The tokens returned by `requestAnimationFrame` are chosen by the host and
  are passed in with the call that makes the request.
* The local functions of the effect (`updateCanvasSize`, `resetBeam`,
  `drawBeam`, `animate`) close over the constants `canvas` and `ctx`.
-/

namespace BackgroundBeams

variable {K : Type} [LinearOrderedField K]

/-! ## Data model -/

/-- The object literal returned by `createBeam` (lines 96-107). -/
structure Beam (K : Type) where
  x : K
  y : K
  width : K
  length : K
  angle : K
  speed : K
  opacity : K
  hue : K
  pulse : K
  pulseSpeed : K
  deriving DecidableEq, Repr

/-- The source of `Math.random()`: the stream of draws and the number of draws
already consumed. -/
structure Rng (K : Type) where
  draws : Nat → K
  pos : Nat

/-- The value returned by the `i`-th next call of `Math.random()`. -/
def Rng.get (g : Rng K) (i : Nat) : K := g.draws (g.pos + i)

/-- The random source after `n` further calls of `Math.random()`. -/
def Rng.skip (g : Rng K) (n : Nat) : Rng K := { g with pos := g.pos + n }

/-- The host functions `Math.sin` and `Math.PI`, and the value that the canvas
element stores when a number is assigned to its `width` or `height`
(`unsigned long` attributes: the stored value is an integer). -/
structure JsMath (K : Type) where
  sin : K → K
  PI : K
  unsignedLong : K → K

/-- The values of `window` read by `updateCanvasSize`; `devicePixelRatio` is
`none` when the host does not define it. -/
structure Window (K : Type) where
  innerWidth : K
  innerHeight : K
  devicePixelRatio : Option K

/-- The canvas element: pixel size and CSS size (in px). -/
structure Canvas (K : Type) where
  width : K
  height : K
  styleWidth : K
  styleHeight : K
  deriving DecidableEq, Repr

/-- One `addColorStop(offset, hsla(hue, saturation, lightness, alpha))`. -/
structure ColorStop (K : Type) where
  offset : K
  hue : K
  saturation : String
  lightness : String
  alpha : K
  deriving DecidableEq, Repr

/-- The canvas calls of one `drawBeam` between `ctx.save()` and
`ctx.restore()`. -/
structure Draw (K : Type) where
  translateX : K
  translateY : K
  rotate : K
  gradX0 : K
  gradY0 : K
  gradX1 : K
  gradY1 : K
  stops : List (ColorStop K)
  rectX : K
  rectY : K
  rectW : K
  rectH : K
  deriving DecidableEq, Repr

/-- The 2D context: the scale set by `ctx.scale`, the `filter` attribute and
the beams drawn since the last `clearRect`. -/
structure Ctx (K : Type) where
  scaleX : K
  scaleY : K
  filter : String
  ops : List (Draw K)

/-- The prop `intensity`. -/
inductive Intensity where
  | subtle
  | medium
  | strong
  deriving DecidableEq, Repr

/-- The state of one `BackgroundBeams` instance: the constants `canvas` and
`ctx` of the effect (absent before the effect ran or when it returned early),
`beamsRef.current`, `animationFrameRef.current`, the random source, whether
the resize listener is attached to `window`, and the frame requests that the
host has neither run nor cancelled. -/
structure State (K : Type) where
  canvas : Option (Canvas K)
  ctx : Option (Ctx K)
  beams : List (Beam K)
  animationFrameRef : Nat
  rng : Rng K
  listening : Bool
  pending : List Nat

/-! ## Constants (lines 81-94) -/

/-- Line 81. -/
def MINIMUM_BEAMS : ℚ := 20

/-- Line 83. -/
def isDarkMode : Bool := false

/-- Lines 85-89. -/
def opacityMap : Intensity → K
  | .subtle => 0.7
  | .medium => 0.85
  | .strong => 1

/-- The default of the destructured prop, line 77: `intensity = "strong"`. -/
def intensityProp (supplied : Option Intensity) : Intensity :=
  match supplied with
  | some i => i
  | none => Intensity.strong

/-- The prop passed by the host page, line 595: `intensity="medium"`. -/
def hostIntensity : Option Intensity := some Intensity.medium

/-- Lines 93 and 140. -/
def hueBase : K := if isDarkMode then 190 else 210

/-- Lines 94 and 141. -/
def hueRange : K := if isDarkMode then 70 else 50

/-! ## createBeam (lines 91-108) -/

/-- The function `createBeam(width, height)`: nine draws, in source order. -/
def createBeam (M : JsMath K) (width height : K) (g : Rng K) : Beam K × Rng K :=
  let angle := -35 + g.get 0 * 10
  ({ x := g.get 1 * width * 1.5 - width * 0.25
     y := g.get 2 * height * 1.5 - height * 0.25
     width := 30 + g.get 3 * 60
     length := height * 2.5
     angle := angle
     speed := 0.6 + g.get 4 * 1.2
     opacity := 0.12 + g.get 5 * 0.16
     hue := hueBase + g.get 6 * hueRange
     pulse := g.get 7 * M.PI * 2
     pulseSpeed := 0.02 + g.get 8 * 0.03 },
   g.skip 9)

/-! ## updateCanvasSize (lines 117-129) -/

/-- The expression `window.devicePixelRatio || 1`. -/
def devicePixelRatioOr1 (win : Window K) : K :=
  match win.devicePixelRatio with
  | some d => if d = 0 then 1 else d
  | none => 1

/-- The length of the array that `Array.from` builds from an array-like with
`length: len`: `len` truncated to a non-negative integer. -/
def toLength (len : ℚ) : Nat := (Int.floor len).toNat

/-- The array that `Array.from` builds with the callback
`() => createBeam(width, height)`, lines 126-128: the callback runs once per
index, in index order. -/
def arrayFromCreateBeam (M : JsMath K) (width height : K) : Nat → Rng K → List (Beam K) × Rng K
  | 0, g => ([], g)
  | n + 1, g =>
    let r := createBeam M width height g
    let rest := arrayFromCreateBeam M width height n r.2
    (r.1 :: rest.1, rest.2)

/-- The function `updateCanvasSize`, for the constants `canvas` and `ctx` of
the effect.  The canvas stores the assigned width and height as converted by
the element, and `createBeam` is passed the stored values (lines 119, 120 and
127).  Assigning `canvas.width` resets the context, so the scale after
`ctx.scale(dpr, dpr)` is `dpr` and nothing is drawn. -/
def updateCanvasSize (M : JsMath K) (win : Window K) (canvas : Canvas K) (ctx : Ctx K)
    (s : State K) : State K :=
  let dpr := devicePixelRatioOr1 win
  let canvas1 : Canvas K :=
    { canvas with
      width := M.unsignedLong (win.innerWidth * dpr)
      height := M.unsignedLong (win.innerHeight * dpr)
      styleWidth := win.innerWidth
      styleHeight := win.innerHeight }
  let ctx1 : Ctx K := { ctx with scaleX := dpr, scaleY := dpr, ops := [] }
  let totalBeams : ℚ := MINIMUM_BEAMS * 1.5
  let r := arrayFromCreateBeam M canvas1.width canvas1.height (toLength totalBeams) s.rng
  { s with canvas := some canvas1, ctx := some ctx1, beams := r.1, rng := r.2 }

/-! ## resetBeam (lines 134-153) -/

/-- The function `resetBeam(beam, index, totalBeams)`: four draws, in source
order (x, width, speed, opacity). -/
def resetBeam (canvas : Option (Canvas K)) (beam : Beam K) (index totalBeams : Nat)
    (g : Rng K) : Beam K × Rng K :=
  match canvas with
  | none => (beam, g)
  | some cv =>
    let column : Nat := index % 3
    let spacing : K := cv.width / 3
    ({ beam with
       y := cv.height + 100
       x := (column : K) * spacing + spacing / 2 + (g.get 0 - 0.5) * spacing * 0.5
       width := 100 + g.get 1 * 100
       speed := 0.5 + g.get 2 * 0.4
       hue := hueBase + ((index : K) * hueRange) / (totalBeams : K)
       opacity := 0.2 + g.get 3 * 0.1 },
     g.skip 4)

/-! ## drawBeam (lines 155-180) -/

/-- The constant `pulsingOpacity` of `drawBeam`, lines 160-163. -/
def pulsingOpacity (M : JsMath K) (intensity : Intensity) (beam : Beam K) : K :=
  beam.opacity * (0.8 + M.sin beam.pulse * 0.2) * opacityMap intensity

/-- Line 167. -/
def saturation : String := if isDarkMode then "85%" else "75%"

/-- Line 168. -/
def lightness : String := if isDarkMode then "65%" else "45%"

/-- The function `drawBeam(ctx, beam)`: the calls it makes on the context. -/
def drawBeam (M : JsMath K) (intensity : Intensity) (beam : Beam K) : Draw K :=
  let a := pulsingOpacity M intensity beam
  { translateX := beam.x
    translateY := beam.y
    rotate := (beam.angle * M.PI) / 180
    gradX0 := 0
    gradY0 := 0
    gradX1 := 0
    gradY1 := beam.length
    stops :=
      [ { offset := 0, hue := beam.hue, saturation := saturation, lightness := lightness, alpha := 0 },
        { offset := 0.1, hue := beam.hue, saturation := saturation, lightness := lightness, alpha := a * 0.5 },
        { offset := 0.4, hue := beam.hue, saturation := saturation, lightness := lightness, alpha := a },
        { offset := 0.6, hue := beam.hue, saturation := saturation, lightness := lightness, alpha := a },
        { offset := 0.9, hue := beam.hue, saturation := saturation, lightness := lightness, alpha := a * 0.5 },
        { offset := 1, hue := beam.hue, saturation := saturation, lightness := lightness, alpha := 0 } ]
    rectX := -beam.width / 2
    rectY := 0
    rectW := beam.width
    rectH := beam.length }

/-! ## animate (lines 182-201) -/

/-- The beam after the two updates of lines 190-191. -/
def ascend (beam : Beam K) : Beam K :=
  let beam1 := { beam with y := beam.y - beam.speed }
  { beam1 with pulse := beam1.pulse + beam1.pulseSpeed }

/-- The test of line 193, on the beam after lines 190-191. -/
def offTop (beam : Beam K) : Bool := decide (beam.y + beam.length < -100)

/-- What one run of the `forEach` callback (lines 189-198) yields: the beam
as it is left, the random source, the arguments of the call of `resetBeam`
when one was made, and the drawing. -/
structure BeamStep (K : Type) where
  beam : Beam K
  rng : Rng K
  reset : Option (Nat × Nat)
  draw : Draw K

/-- The callback of `forEach`, lines 189-198. -/
def frameBeam (M : JsMath K) (intensity : Intensity) (canvas : Option (Canvas K))
    (totalBeams : Nat) (beam : Beam K) (index : Nat) (g : Rng K) : BeamStep K :=
  let beam1 := ascend beam
  if offTop beam1 then
    let r := resetBeam canvas beam1 index totalBeams g
    { beam := r.1, rng := r.2, reset := some (index, totalBeams), draw := drawBeam M intensity r.1 }
  else
    { beam := beam1, rng := g, reset := none, draw := drawBeam M intensity beam1 }

/-- What the whole `forEach` yields: the pool, the random source, the calls of
`resetBeam` made (their `index` and `totalBeams` arguments, in call order) and
the drawings (in call order). -/
structure LoopResult (K : Type) where
  beams : List (Beam K)
  rng : Rng K
  resets : List (Nat × Nat)
  draws : List (Draw K)

/-- The method `forEach` over the pool from position `index` on. -/
def forEachBeam (M : JsMath K) (intensity : Intensity) (canvas : Option (Canvas K))
    (totalBeams : Nat) : Nat → List (Beam K) → Rng K → LoopResult K
  | _, [], g => { beams := [], rng := g, resets := [], draws := [] }
  | index, beam :: rest, g =>
    let b := frameBeam M intensity canvas totalBeams beam index g
    let r := forEachBeam M intensity canvas totalBeams (index + 1) rest b.rng
    { beams := b.beam :: r.beams
      rng := r.rng
      resets := b.reset.toList ++ r.resets
      draws := b.draw :: r.draws }

/-- Lines 188-198: `totalBeams` is read once, then the pool is traversed. -/
def animateLoop (M : JsMath K) (intensity : Intensity) (s : State K) : LoopResult K :=
  forEachBeam M intensity s.canvas s.beams.length 0 s.beams s.rng

/-- The function `animate`; `tok` is the token that the host returns for the
request of line 200. -/
def animate (M : JsMath K) (intensity : Intensity) (tok : Nat) (s : State K) : State K :=
  match s.canvas, s.ctx with
  | some _, some ctx =>
    let r := animateLoop M intensity s
    { s with
      ctx := some { ctx with filter := "blur(35px)", ops := r.draws }
      beams := r.beams
      rng := r.rng
      animationFrameRef := tok
      pending := s.pending ++ [tok] }
  | _, _ => s

/-! ## The effect (lines 110-211) and the host events -/

/-- The state of a component whose effect has not run. -/
def init (g : Rng K) : State K :=
  { canvas := none, ctx := none, beams := [], animationFrameRef := 0, rng := g,
    listening := false, pending := [] }

/-- The body of the effect: `canvasRef` is `canvasRef.current`, `getContext`
the result of `canvas.getContext("2d")`, `tok` the token of the first frame
request. -/
def setup (M : JsMath K) (intensity : Intensity) (canvasRef : Option (Canvas K))
    (getContext : Option (Ctx K)) (win : Window K) (tok : Nat) (s : State K) : State K :=
  match canvasRef with
  | none => s
  | some canvas =>
    match getContext with
    | none => s
    | some ctx =>
      let s1 := updateCanvasSize M win canvas ctx s
      let s2 := { s1 with listening := true }
      animate M intensity tok s2

/-- The function returned by the effect, lines 205-210. -/
def cleanup (s : State K) : State K :=
  let s1 := { s with listening := false }
  if s1.animationFrameRef ≠ 0 then
    { s1 with pending := s1.pending.erase s1.animationFrameRef }
  else s1

/-- What the host does to a mounted component: it runs the pending frame
request `fired` (whose own request returns `tok`), or it delivers a resize
event after the window changed to `win`. -/
inductive Event (K : Type) where
  | frame (fired tok : Nat)
  | resize (win : Window K)

/-- The reaction to one host event. -/
def step (M : JsMath K) (intensity : Intensity) (e : Event K) (s : State K) : State K :=
  match e with
  | .frame fired tok =>
    if fired ∈ s.pending then
      animate M intensity tok { s with pending := s.pending.erase fired }
    else s
  | .resize win =>
    if s.listening then
      match s.canvas, s.ctx with
      | some canvas, some ctx => updateCanvasSize M win canvas ctx s
      | _, _ => s
    else s

/-- The states of a component after a successful mount and any host events. -/
inductive Reachable (M : JsMath K) (intensity : Intensity) : State K → Prop
  | mount (g : Rng K) (canvas : Canvas K) (ctx : Ctx K) (win : Window K) (tok : Nat) :
      Reachable M intensity (setup M intensity (some canvas) (some ctx) win tok (init g))
  | step (e : Event K) (s : State K) :
      Reachable M intensity s → Reachable M intensity (step M intensity e s)

/-! ## Notions used to state the properties -/

/-- Every draw of the random source lies in `[0, 1)`, as `Math.random()`
guarantees. -/
def UnitDraws (g : Rng K) : Prop := ∀ n, 0 ≤ g.draws n ∧ g.draws n < 1

/-- The ranges that `resetBeam` writes: width in `[100, 200)`, speed in
`[0.5, 0.9)`, opacity in `[0.2, 0.3)`. -/
def InRecycleBand (b : Beam K) : Prop :=
  100 ≤ b.width ∧ b.width < 200 ∧ 0.5 ≤ b.speed ∧ b.speed < 0.9 ∧
    0.2 ≤ b.opacity ∧ b.opacity < 0.3

/-- Consecutive calls of `animate`, one per token of `toks`, with no other
event in between. -/
def runFrames (M : JsMath K) (intensity : Intensity) : List Nat → State K → State K
  | [], s => s
  | tok :: toks, s => runFrames M intensity toks (animate M intensity tok s)

/-! ## Sample inputs -/

/-- A host whose `Math.sin` is constantly `0`, whose `Math.PI` is `22/7` and
whose canvas truncates an assigned non-negative size to an integer. -/
def sampleMath : JsMath ℚ :=
  { sin := fun _ => 0, PI := 22 / 7, unsignedLong := fun q => ((Rat.floor q).toNat : ℚ) }

/-- A random source cycling through `0, 1/4, 1/2, 3/4`. -/
def sampleRng : Rng ℚ := { draws := fun n => ((n % 4 : Nat) : ℚ) / 4, pos := 0 }

/-- A 1200 x 800 window with device pixel ratio 2. -/
def sampleWindow : Window ℚ :=
  { innerWidth := 1200, innerHeight := 800, devicePixelRatio := some 2 }

/-- A canvas of the default size 300 x 150. -/
def sampleCanvas : Canvas ℚ := { width := 300, height := 150, styleWidth := 300, styleHeight := 150 }

/-- A fresh context. -/
def sampleCtx : Ctx ℚ := { scaleX := 1, scaleY := 1, filter := "none", ops := [] }

/-- The component right after a successful mount. -/
def sampleMounted : State ℚ :=
  setup sampleMath Intensity.medium (some sampleCanvas) (some sampleCtx) sampleWindow 1
    (init sampleRng)

/-- A beam that is above the recycle threshold after one more ascent:
`-2101 - 1 + 2000 < -100`. -/
def sampleBeamHigh : Beam ℚ :=
  { x := 10, y := -2101, width := 40, length := 2000, angle := -30, speed := 1,
    opacity := 1 / 4, hue := 220, pulse := 0, pulseSpeed := 1 / 40 }

/-- A beam in the middle of the surface. -/
def sampleBeamMid : Beam ℚ :=
  { x := 500, y := 300, width := 60, length := 2000, angle := -28, speed := 3 / 2,
    opacity := 1 / 5, hue := 240, pulse := 1, pulseSpeed := 1 / 25 }

/-- A running component with an 800 x 800 surface and a pool of two beams. -/
def sampleRunning : State ℚ :=
  { canvas := some { width := 800, height := 800, styleWidth := 800, styleHeight := 800 }
    ctx := some sampleCtx
    beams := [sampleBeamHigh, sampleBeamMid]
    animationFrameRef := 1
    rng := sampleRng
    listening := true
    pending := [1] }

/-- The reactions to a list of host events, in order. -/
def runEvents (M : JsMath K) (intensity : Intensity) : List (Event K) → State K → State K
  | [], s => s
  | e :: es, s => runEvents M intensity es (step M intensity e s)

/-- A window of 1001 x 801 with device pixel ratio 1.5. -/
def sampleWindowFrac : Window ℚ :=
  { innerWidth := 1001, innerHeight := 801, devicePixelRatio := some (3 / 2) }

/-- A running component with another pool and a random source four draws
further, whose next draws are those of `sampleRunning`. -/
def sampleOther : State ℚ :=
  { sampleRunning with beams := [sampleBeamMid], rng := { sampleRng with pos := 4 } }

/-- A beam that is exactly on the recycle threshold after one more ascent:
`-2099 - 1 + 2000 = -100`. -/
def sampleBeamEdge : Beam ℚ :=
  { x := 10, y := -2099, width := 40, length := 2000, angle := -30, speed := 1,
    opacity := 1 / 4, hue := 220, pulse := 0, pulseSpeed := 1 / 40 }

/-- A running component whose pool is the single beam `sampleBeamEdge`. -/
def sampleEdge : State ℚ := { sampleRunning with beams := [sampleBeamEdge] }

/-- The frame, counted from a recycle, in which a beam of speed `speed` on a
surface of height `H` is recycled next: `floor((3.5*H + 200)/speed) + 1`. -/
def recycleFrame [FloorRing K] (H speed : K) : Nat :=
  Nat.floor ((3.5 * H + 200) / speed) + 1

/-- The x-coordinate, in device pixels, at which the origin of a drawing lands
under the scale of the context: `ctx.scale(dpr, dpr)` followed by
`ctx.translate(x, y)` maps the origin to `(dpr * x, dpr * y)`. -/
def deviceX (ctx : Ctx K) (d : Draw K) : K := ctx.scaleX * d.translateX

/-- A surface of 800 x 800 pixels. -/
def sampleSurface : Canvas ℚ :=
  { width := 800, height := 800, styleWidth := 800, styleHeight := 800 }

/-- A beam as `resetBeam` leaves it on `sampleSurface`: `y = 800 + 100`,
`length = 2.5 * 800`, speed `1/2`. -/
def sampleBeamFresh : Beam ℚ :=
  { x := 400, y := 900, width := 150, length := 2000, angle := -30, speed := 1 / 2,
    opacity := 1 / 4, hue := 210, pulse := 0, pulseSpeed := 1 / 40 }

/-- A running component on `sampleSurface` whose pool is the single beam
`sampleBeamFresh`. -/
def sampleFresh : State ℚ :=
  { canvas := some sampleSurface
    ctx := some sampleCtx
    beams := [sampleBeamFresh]
    animationFrameRef := 1
    rng := sampleRng
    listening := true
    pending := [1] }

/-! ## The gallery (lines 329-589 and 980-992) -/

/-- An entry of `fullGallery`. -/
structure GalleryItem where
  id : Nat
  src : String
  category : String
  alt : String
  size : String
  deriving DecidableEq, Repr

/-- The constant `fullGallery`, lines 329-585. -/
def fullGallery : List GalleryItem :=
  [
    { id := 22, src := "/upload-1.jpg", category := "Weddings", alt := "Wedding Highlight 1", size := "tall" },
    { id := 23, src := "/upload-2.jpg", category := "Weddings", alt := "Wedding Highlight 2", size := "normal" },
    { id := 24, src := "/upload-3.jpg", category := "Weddings", alt := "Wedding Highlight 3", size := "wide" },
    { id := 25, src := "/upload-4.jpg", category := "Weddings", alt := "Wedding Highlight 4", size := "normal" },
    { id := 26, src := "/upload-5.jpg", category := "Weddings", alt := "Wedding Highlight 5", size := "tall" },
    { id := 27, src := "/upload-6.jpg", category := "Weddings", alt := "Wedding Highlight 6", size := "normal" },
    { id := 28, src := "/upload-7.jpg", category := "Weddings", alt := "Wedding Highlight 7", size := "tall" },
    { id := 29, src := "/upload-8.jpg", category := "Weddings", alt := "Wedding Highlight 8", size := "wide" },
    { id := 30, src := "/upload-9.jpg", category := "Weddings", alt := "Wedding Highlight 9", size := "normal" },
    { id := 31, src := "/upload-10.jpg", category := "Weddings", alt := "Wedding Highlight 10", size := "large" },
    { id := 32, src := "/upload-11.jpg", category := "Weddings", alt := "Wedding Highlight 11", size := "normal" },
    { id := 33, src := "/upload-12.jpg", category := "Weddings", alt := "Wedding Highlight 12", size := "tall" },
    { id := 34, src := "/upload-13.jpg", category := "Weddings", alt := "Wedding Highlight 13", size := "wide" },
    { id := 35, src := "/upload-14.jpg", category := "Weddings", alt := "Wedding Highlight 14", size := "normal" },
    { id := 36, src := "/upload-15.jpg", category := "Weddings", alt := "Wedding Highlight 15", size := "large" },
    { id := 37, src := "/upload-16.jpg", category := "Weddings", alt := "Wedding Highlight 16", size := "tall" },
    { id := 38, src := "/upload-17.jpg", category := "Weddings", alt := "Wedding Highlight 17", size := "normal" },
    { id := 39, src := "/upload-18.jpg", category := "Weddings", alt := "Wedding Highlight 18", size := "wide" },
    { id := 40, src := "/upload-19.jpg", category := "Weddings", alt := "Wedding Highlight 19", size := "normal" },
    { id := 41, src := "/upload-20.jpg", category := "Weddings", alt := "Wedding Highlight 20", size := "large" },
    { id := 42, src := "/upload-21.jpg", category := "Weddings", alt := "Wedding Highlight 21", size := "normal" },
    { id := 43, src := "/upload-22.jpg", category := "Weddings", alt := "Wedding Highlight 22", size := "tall" },
    { id := 44, src := "/upload-23.jpg", category := "Weddings", alt := "Wedding Highlight 23", size := "wide" },
    { id := 45, src := "/upload-24.jpg", category := "Weddings", alt := "Wedding Highlight 24", size := "normal" },
    { id := 46, src := "/upload-25.jpg", category := "Weddings", alt := "Wedding Highlight 25", size := "large" },
    { id := 47, src := "/upload-1.jpg", category := "Weddings", alt := "Wedding Highlight 26", size := "normal" },
    { id := 48, src := "/upload-2.jpg", category := "Weddings", alt := "Wedding Highlight 27", size := "tall" },
    { id := 49, src := "/upload-3.jpg", category := "Weddings", alt := "Wedding Highlight 28", size := "wide" },
    { id := 50, src := "/upload-4.jpg", category := "Weddings", alt := "Wedding Highlight 29", size := "normal" },
    { id := 51, src := "/upload-5.jpg", category := "Weddings", alt := "Wedding Highlight 30", size := "large" },
    { id := 52, src := "/upload-6.jpg", category := "Weddings", alt := "Wedding Highlight 31", size := "tall" },
    { id := 53, src := "/upload-7.jpg", category := "Weddings", alt := "Wedding Highlight 32", size := "wide" },
    { id := 54, src := "/upload-8.jpg", category := "Weddings", alt := "Wedding Highlight 33", size := "normal" },
    { id := 55, src := "/upload-9.jpg", category := "Weddings", alt := "Wedding Highlight 34", size := "large" },
    { id := 56, src := "/upload-10.jpg", category := "Weddings", alt := "Wedding Highlight 35", size := "normal" }
  ]

/-- The constant `filteredGallery`, lines 587-589, for the value of the state
`galleryFilter`. -/
def filteredGallery (galleryFilter : String) : List GalleryItem :=
  if galleryFilter = "All" then fullGallery
  else fullGallery.filter (fun img => decide (img.category = galleryFilter))

/-- The labels of the filter tabs, line 981. -/
def filterTabs : List String :=
  ["All", "Weddings", "Pre-Wedding", "Events", "Editorial", "Drone"]

/-! ## Binary64 arithmetic

The numbers of the engine are binary64 values: an arithmetic operation returns
the exact result rounded to the nearest value with a significand of 53 bits,
ties to even, and a decimal literal denotes the binary64 value nearest to it.
The exponent range is not limited here, so `round64` is the rounding of
binary64 for results of magnitude between `2^-1022` and `2^1024`, which covers
every value computed below. -/

/-- The power `2^e` for an integer exponent. -/
def pow2 (e : ℤ) : ℚ :=
  if 0 ≤ e then ((2 ^ e.toNat : ℕ) : ℚ) else 1 / ((2 ^ (-e).toNat : ℕ) : ℚ)

/-- The integer nearest to `x`, the even one of the two when `x` is half-way. -/
def roundHalfEven (x : ℚ) : ℤ :=
  if x - (Rat.floor x : ℚ) < 1 / 2 then Rat.floor x
  else if 1 / 2 < x - (Rat.floor x : ℚ) then Rat.floor x + 1
  else if Rat.floor x % 2 = 0 then Rat.floor x else Rat.floor x + 1

/-- The number of binary digits of `n`, with `fuel` at least that number. -/
def bitLength : Nat → Nat → Nat
  | 0, _ => 0
  | fuel + 1, n => if n = 0 then 0 else bitLength fuel (n / 2) + 1

/-- The exponent `e` with `2^e <= |x| < 2^(e+1)`, for `x` other than 0: it is
the difference of the bit lengths of numerator and denominator, or one less. -/
def binadeExp (x : ℚ) : ℤ :=
  if pow2 ((bitLength x.num.natAbs x.num.natAbs : ℤ) - (bitLength x.den x.den : ℤ)) ≤ |x| then
    (bitLength x.num.natAbs x.num.natAbs : ℤ) - (bitLength x.den x.den : ℤ)
  else (bitLength x.num.natAbs x.num.natAbs : ℤ) - (bitLength x.den x.den : ℤ) - 1

/-- The binary64 value nearest to `x`, ties to even: `x` is rounded to a
multiple of `2^(e-52)`, where `2^e <= |x| < 2^(e+1)`. -/
def round64 (x : ℚ) : ℚ :=
  if x = 0 then 0
  else (roundHalfEven (x / pow2 (binadeExp x - 52)) : ℚ) * pow2 (binadeExp x - 52)

/-- The operator `+` of the engine. -/
def add64 (a b : ℚ) : ℚ := round64 (a + b)

/-- The operator `-` of the engine. -/
def sub64 (a b : ℚ) : ℚ := round64 (a - b)

/-- The operator `*` of the engine. -/
def mul64 (a b : ℚ) : ℚ := round64 (a * b)

/-- The operator `/` of the engine. -/
def div64 (a b : ℚ) : ℚ := round64 (a / b)

/-- The function `createBeam` (lines 91-108) as the engine computes it: the
draws, `width`, `height` and `Math.PI` are binary64 values. -/
def createBeam64 (M : JsMath ℚ) (width height : ℚ) (g : Rng ℚ) : Beam ℚ × Rng ℚ :=
  let angle := add64 (-35) (mul64 (g.get 0) 10)
  ({ x := sub64 (mul64 (mul64 (g.get 1) width) (round64 1.5)) (mul64 width (round64 0.25))
     y := sub64 (mul64 (mul64 (g.get 2) height) (round64 1.5)) (mul64 height (round64 0.25))
     width := add64 30 (mul64 (g.get 3) 60)
     length := mul64 height (round64 2.5)
     angle := angle
     speed := add64 (round64 0.6) (mul64 (g.get 4) (round64 1.2))
     opacity := add64 (round64 0.12) (mul64 (g.get 5) (round64 0.16))
     hue := add64 hueBase (mul64 (g.get 6) hueRange)
     pulse := mul64 (mul64 (g.get 7) M.PI) 2
     pulseSpeed := add64 (round64 0.02) (mul64 (g.get 8) (round64 0.03)) },
   g.skip 9)

/-- The function `resetBeam` (lines 134-153) as the engine computes it. -/
def resetBeam64 (canvas : Option (Canvas ℚ)) (beam : Beam ℚ) (index totalBeams : Nat)
    (g : Rng ℚ) : Beam ℚ × Rng ℚ :=
  match canvas with
  | none => (beam, g)
  | some cv =>
    let column : Nat := index % 3
    let spacing : ℚ := div64 cv.width 3
    ({ beam with
       y := add64 cv.height 100
       x := add64 (add64 (mul64 (column : ℚ) spacing) (div64 spacing 2))
         (mul64 (mul64 (sub64 (g.get 0) (round64 0.5)) spacing) (round64 0.5))
       width := add64 100 (mul64 (g.get 1) 100)
       speed := add64 (round64 0.5) (mul64 (g.get 2) (round64 0.4))
       hue := add64 hueBase (div64 (mul64 (index : ℚ) hueRange) (totalBeams : ℚ))
       opacity := add64 (round64 0.2) (mul64 (g.get 3) (round64 0.1)) },
     g.skip 4)

/-- Lines 190-191 as the engine computes them. -/
def ascend64 (beam : Beam ℚ) : Beam ℚ :=
  let beam1 := { beam with y := sub64 beam.y beam.speed }
  { beam1 with pulse := add64 beam1.pulse beam1.pulseSpeed }

/-- The test of line 193 as the engine computes it. -/
def offTop64 (beam : Beam ℚ) : Bool := decide (add64 beam.y beam.length < -100)

/-- The beam after lines 190-191 of `n` consecutive frames, none of which
recycles it. -/
def ascendN64 : Nat → Beam ℚ → Beam ℚ
  | 0, beam => beam
  | n + 1, beam => ascendN64 n (ascend64 beam)

/-- A random source whose draws are all `1 - 2^-53`, the largest binary64
value below 1. -/
def sampleRngTop : Rng ℚ := { draws := fun _ => 1 - 1 / 2 ^ 53, pos := 0 }

/-- A surface of 1200 x 800 pixels. -/
def sampleSurface1200 : Canvas ℚ :=
  { width := 1200, height := 800, styleWidth := 1200, styleHeight := 800 }

/-- A surface of 1000 x 800 pixels. -/
def sampleSurface1000 : Canvas ℚ :=
  { width := 1000, height := 800, styleWidth := 1000, styleHeight := 800 }

/-- A beam as `resetBeam` leaves it on a surface of height 150: `y = 150 + 100`,
`length = 2.5 * 150`, and the speed is the binary64 value of `0.725`. -/
def sampleBeam725 : Beam ℚ :=
  { x := 400, y := 250, width := 150, length := 375, angle := -30, speed := round64 0.725,
    opacity := 1 / 4, hue := 210, pulse := 0, pulseSpeed := 1 / 64 }

/-! ## Auxiliary facts -/

theorem toLength_totalBeams : toLength (MINIMUM_BEAMS * 1.5) = 30 := by
  have h : (MINIMUM_BEAMS * 1.5 : ℚ) = ((30 : ℤ) : ℚ) := by
    norm_num [MINIMUM_BEAMS]
  unfold toLength
  rw [h, Int.floor_intCast]
  rfl

theorem arrayFromCreateBeam_length (M : JsMath K) (width height : K) (n : Nat) (g : Rng K) :
    (arrayFromCreateBeam M width height n g).1.length = n := by
  induction n generalizing g with
  | zero => rfl
  | succ n ih => simp [arrayFromCreateBeam, ih]

theorem forEachBeam_length (M : JsMath K) (intensity : Intensity) (canvas : Option (Canvas K))
    (totalBeams : Nat) (beams : List (Beam K)) (index : Nat) (g : Rng K) :
    (forEachBeam M intensity canvas totalBeams index beams g).beams.length = beams.length := by
  induction beams generalizing index g with
  | nil => rfl
  | cons b rest ih => simp [forEachBeam, ih]

theorem updateCanvasSize_length (M : JsMath K) (win : Window K) (canvas : Canvas K)
    (ctx : Ctx K) (s : State K) :
    (updateCanvasSize M win canvas ctx s).beams.length = 30 := by
  simp [updateCanvasSize, arrayFromCreateBeam_length, toLength_totalBeams]

theorem animate_length (M : JsMath K) (intensity : Intensity) (tok : Nat) (s : State K) :
    (animate M intensity tok s).beams.length = s.beams.length := by
  unfold animate
  split
  · simp [animateLoop, forEachBeam_length]
  · rfl

theorem step_length (M : JsMath K) (intensity : Intensity) (e : Event K) (s : State K)
    (h : s.beams.length = 30) : (step M intensity e s).beams.length = 30 := by
  cases e with
  | frame fired tok =>
    simp only [step]
    split
    · rw [animate_length]; exact h
    · exact h
  | resize win =>
    simp only [step]
    split
    · split
      · exact updateCanvasSize_length M win _ _ s
      · exact h
    · exact h

theorem reachable_length (M : JsMath K) (intensity : Intensity) (s : State K)
    (h : Reachable M intensity s) : s.beams.length = 30 := by
  induction h with
  | mount g canvas ctx win tok =>
    simp only [setup]
    rw [animate_length]
    exact updateCanvasSize_length M win canvas ctx (init g)
  | step e s _ ih => exact step_length M intensity e s ih

/-! ### The callback of one beam -/

theorem resetBeam_rng_draws (canvas : Option (Canvas K)) (beam : Beam K) (index totalBeams : Nat)
    (g : Rng K) : (resetBeam canvas beam index totalBeams g).2.draws = g.draws := by
  cases canvas <;> rfl

theorem frameBeam_rng_draws (M : JsMath K) (intensity : Intensity) (canvas : Option (Canvas K))
    (totalBeams : Nat) (beam : Beam K) (index : Nat) (g : Rng K) :
    (frameBeam M intensity canvas totalBeams beam index g).rng.draws = g.draws := by
  by_cases h : offTop (ascend beam) = true
  · simp [frameBeam, h, resetBeam_rng_draws]
  · simp [frameBeam, h]

theorem frameBeam_beam (M : JsMath K) (intensity : Intensity) (canvas : Option (Canvas K))
    (totalBeams : Nat) (beam : Beam K) (index : Nat) (g : Rng K) :
    (frameBeam M intensity canvas totalBeams beam index g).beam =
      if offTop (ascend beam) = true then
        (resetBeam canvas (ascend beam) index totalBeams g).1
      else ascend beam := by
  by_cases h : offTop (ascend beam) = true <;> simp [frameBeam, h]

theorem frameBeam_reset (M : JsMath K) (intensity : Intensity) (canvas : Option (Canvas K))
    (totalBeams : Nat) (beam : Beam K) (index : Nat) (g : Rng K) :
    (frameBeam M intensity canvas totalBeams beam index g).reset =
      if offTop (ascend beam) = true then some (index, totalBeams) else none := by
  by_cases h : offTop (ascend beam) = true <;> simp [frameBeam, h]

theorem frameBeam_draw (M : JsMath K) (intensity : Intensity) (canvas : Option (Canvas K))
    (totalBeams : Nat) (beam : Beam K) (index : Nat) (g : Rng K) :
    (frameBeam M intensity canvas totalBeams beam index g).draw =
      drawBeam M intensity (frameBeam M intensity canvas totalBeams beam index g).beam := by
  by_cases h : offTop (ascend beam) = true <;> simp [frameBeam, h]

/-! ### The traversal of the pool -/

theorem forEachBeam_rng_draws (M : JsMath K) (intensity : Intensity) (canvas : Option (Canvas K))
    (totalBeams : Nat) (beams : List (Beam K)) (index : Nat) (g : Rng K) :
    (forEachBeam M intensity canvas totalBeams index beams g).rng.draws = g.draws := by
  induction beams generalizing index g with
  | nil => rfl
  | cons b rest ih =>
    simp only [forEachBeam]
    rw [ih, frameBeam_rng_draws]

theorem forEachBeam_get (M : JsMath K) (intensity : Intensity) (canvas : Option (Canvas K))
    (totalBeams : Nat) (beams : List (Beam K)) (index : Nat) (g : Rng K) (j : Nat) (b : Beam K)
    (hb : beams[j]? = some b) :
    ∃ g1 : Rng K, g1.draws = g.draws ∧
      (forEachBeam M intensity canvas totalBeams index beams g).beams[j]? =
        some (frameBeam M intensity canvas totalBeams b (index + j) g1).beam := by
  induction beams generalizing index g j with
  | nil => simp at hb
  | cons b0 rest ih =>
    cases j with
    | zero =>
      simp only [List.getElem?_cons_zero, Option.some.injEq] at hb
      subst hb
      exact ⟨g, rfl, by simp [forEachBeam]⟩
    | succ j =>
      simp only [List.getElem?_cons_succ] at hb
      obtain ⟨g1, hg1, h1⟩ := ih (index + 1) (frameBeam M intensity canvas totalBeams b0 index g).rng j hb
      refine ⟨g1, ?_, ?_⟩
      · rw [hg1, frameBeam_rng_draws]
      · simp only [forEachBeam, List.getElem?_cons_succ]
        rw [h1]
        congr 3
        omega

theorem forEachBeam_resets_mem (M : JsMath K) (intensity : Intensity) (canvas : Option (Canvas K))
    (totalBeams : Nat) (beams : List (Beam K)) (index : Nat) (g : Rng K) (i n : Nat) :
    (i, n) ∈ (forEachBeam M intensity canvas totalBeams index beams g).resets ↔
      n = totalBeams ∧ ∃ j b, beams[j]? = some b ∧ i = index + j ∧ offTop (ascend b) = true := by
  induction beams generalizing index g with
  | nil => simp [forEachBeam]
  | cons b0 rest ih =>
    simp only [forEachBeam, List.mem_append, ih, frameBeam_reset]
    constructor
    · rintro (h | ⟨hn, j, b, hb, hi, ho⟩)
      · by_cases ho : offTop (ascend b0) = true
        · simp only [ho, if_true, Option.toList_some, List.mem_singleton, Prod.mk.injEq] at h
          exact ⟨h.2, 0, b0, by simp, by simp [h.1], ho⟩
        · simp [ho] at h
      · exact ⟨hn, j + 1, b, by simpa using hb, by omega, ho⟩
    · rintro ⟨hn, j, b, hb, hi, ho⟩
      cases j with
      | zero =>
        simp only [List.getElem?_cons_zero, Option.some.injEq] at hb
        subst hb
        left
        simp [ho, hn, hi]
      | succ j =>
        right
        exact ⟨hn, j, b, by simpa using hb, by omega, ho⟩

theorem forEachBeam_resets_nodup (M : JsMath K) (intensity : Intensity)
    (canvas : Option (Canvas K)) (totalBeams : Nat) (beams : List (Beam K)) (index : Nat)
    (g : Rng K) : (forEachBeam M intensity canvas totalBeams index beams g).resets.Nodup := by
  induction beams generalizing index g with
  | nil => simp [forEachBeam]
  | cons b0 rest ih =>
    simp only [forEachBeam, frameBeam_reset]
    by_cases ho : offTop (ascend b0) = true
    · simp only [ho, if_true, Option.toList_some, List.singleton_append, List.nodup_cons]
      refine ⟨?_, ih _ _⟩
      rw [forEachBeam_resets_mem]
      rintro ⟨_, j, b, _, hi, _⟩
      omega
    · simpa [ho] using ih _ _

theorem countP_le_one_of_nodup {α : Type} (l : List α) (p : α → Bool) (a : α)
    (hn : l.Nodup) (h : ∀ x ∈ l, p x = true → x = a) : l.countP p ≤ 1 := by
  induction l with
  | nil => simp
  | cons x xs ih =>
    rw [List.nodup_cons] at hn
    have ih1 := ih hn.2 (fun y hy hp => h y (List.mem_cons_of_mem _ hy) hp)
    by_cases hx : p x = true
    · have hxa : x = a := h x (List.mem_cons_self _ _) hx
      have hzero : xs.countP p = 0 := by
        rw [List.countP_eq_zero]
        intro y hy hp
        have hya : y = a := h y (List.mem_cons_of_mem _ hy) hp
        exact hn.1 (by rw [hxa, ← hya]; exact hy)
      rw [List.countP_cons_of_pos _ _ hx, hzero]
    · rw [List.countP_cons_of_neg _ _ hx]
      exact ih1

theorem animate_beams (M : JsMath K) (intensity : Intensity) (tok : Nat) (s : State K)
    (cv : Canvas K) (cx : Ctx K) (hcv : s.canvas = some cv) (hcx : s.ctx = some cx) :
    (animate M intensity tok s).beams = (animateLoop M intensity s).beams := by
  simp [animate, hcv, hcx]

theorem ascend_y (b : Beam K) : (ascend b).y = b.y - b.speed := rfl

theorem ascend_length (b : Beam K) : (ascend b).length = b.length := rfl

theorem offTop_ascend (b : Beam K) :
    offTop (ascend b) = true ↔ b.y - b.speed + b.length < -100 := by
  simp [offTop, ascend]

theorem resetBeam_hue (cv : Canvas K) (beam : Beam K) (i N : Nat) (g : Rng K) :
    (resetBeam (some cv) beam i N g).1.hue = 210 + ((i : K) * 50) / (N : K) := by
  simp [resetBeam, hueBase, hueRange, isDarkMode]

/-! ### The recycle band -/

theorem resetBeam_band (cv : Canvas K) (beam : Beam K) (i N : Nat) (g : Rng K)
    (hr : UnitDraws g) : InRecycleBand (resetBeam (some cv) beam i N g).1 := by
  have h1 := hr (g.pos + 1)
  have h2 := hr (g.pos + 2)
  have h3 := hr (g.pos + 3)
  simp only [InRecycleBand, resetBeam, Rng.get]
  refine ⟨?_, ?_, ?_, ?_, ?_, ?_⟩ <;> norm_num <;> linarith [h1.1, h1.2, h2.1, h2.2, h3.1, h3.2]

theorem ascend_band (b : Beam K) : InRecycleBand (ascend b) ↔ InRecycleBand b := Iff.rfl

theorem frameBeam_band (M : JsMath K) (intensity : Intensity) (cv : Canvas K)
    (totalBeams : Nat) (beam : Beam K) (index : Nat) (g : Rng K) (hr : UnitDraws g)
    (h : offTop (ascend beam) = true ∨ InRecycleBand beam) :
    InRecycleBand (frameBeam M intensity (some cv) totalBeams beam index g).beam := by
  rw [frameBeam_beam]
  by_cases ho : offTop (ascend beam) = true
  · rw [if_pos ho]
    exact resetBeam_band cv _ index totalBeams g hr
  · rw [if_neg ho]
    rcases h with h | h
    · exact absurd h ho
    · exact (ascend_band beam).2 h

theorem unitDraws_of_draws_eq (g g1 : Rng K) (h : g1.draws = g.draws) (hr : UnitDraws g) :
    UnitDraws g1 := by
  intro n
  rw [h]
  exact hr n

theorem animate_canvas (M : JsMath K) (intensity : Intensity) (tok : Nat) (s : State K) :
    (animate M intensity tok s).canvas = s.canvas := by
  unfold animate
  split <;> rfl

theorem animate_ctx_isSome (M : JsMath K) (intensity : Intensity) (tok : Nat) (s : State K) :
    (animate M intensity tok s).ctx.isSome = s.ctx.isSome := by
  unfold animate
  split
  · next h1 h2 => simp [h2]
  · rfl

theorem animate_listening (M : JsMath K) (intensity : Intensity) (tok : Nat) (s : State K) :
    (animate M intensity tok s).listening = s.listening := by
  unfold animate
  split <;> rfl

theorem animate_rng_draws (M : JsMath K) (intensity : Intensity) (tok : Nat) (s : State K) :
    (animate M intensity tok s).rng.draws = s.rng.draws := by
  unfold animate
  split
  · exact forEachBeam_rng_draws M intensity s.canvas s.beams.length s.beams 0 s.rng
  · rfl

theorem animate_get (M : JsMath K) (intensity : Intensity) (tok : Nat) (s : State K)
    (cv : Canvas K) (cx : Ctx K) (hcv : s.canvas = some cv) (hcx : s.ctx = some cx)
    (i : Nat) (b : Beam K) (hb : s.beams[i]? = some b) :
    ∃ g : Rng K, g.draws = s.rng.draws ∧
      (animate M intensity tok s).beams[i]? =
        some (frameBeam M intensity (some cv) s.beams.length b i g).beam := by
  obtain ⟨g, hg, hget⟩ :=
    forEachBeam_get M intensity s.canvas s.beams.length s.beams 0 s.rng i b hb
  refine ⟨g, hg, ?_⟩
  rw [animate_beams M intensity tok s cv cx hcv hcx]
  unfold animateLoop
  rw [hget, hcv, Nat.zero_add]

theorem animate_band (M : JsMath K) (intensity : Intensity) (tok : Nat) (s : State K)
    (cv : Canvas K) (cx : Ctx K) (hcv : s.canvas = some cv) (hcx : s.ctx = some cx)
    (hr : UnitDraws s.rng) (i : Nat) (b : Beam K) (hb : s.beams[i]? = some b)
    (h : offTop (ascend b) = true ∨ InRecycleBand b) :
    ∃ b1, (animate M intensity tok s).beams[i]? = some b1 ∧ InRecycleBand b1 := by
  obtain ⟨g, hg, hget⟩ := animate_get M intensity tok s cv cx hcv hcx i b hb
  exact ⟨_, hget, frameBeam_band M intensity cv _ b i g (unitDraws_of_draws_eq _ _ hg hr) h⟩

theorem runFrames_band (M : JsMath K) (intensity : Intensity) (toks : List Nat) (s : State K)
    (hcv : s.canvas.isSome = true) (hcx : s.ctx.isSome = true) (hr : UnitDraws s.rng)
    (i : Nat) (b : Beam K) (hb : s.beams[i]? = some b) (h : InRecycleBand b) :
    ∃ b1, (runFrames M intensity toks s).beams[i]? = some b1 ∧ InRecycleBand b1 := by
  induction toks generalizing s b with
  | nil => exact ⟨b, hb, h⟩
  | cons tok toks ih =>
    obtain ⟨cv, hcv1⟩ := Option.isSome_iff_exists.1 hcv
    obtain ⟨cx, hcx1⟩ := Option.isSome_iff_exists.1 hcx
    obtain ⟨b1, hb1, hband⟩ :=
      animate_band M intensity tok s cv cx hcv1 hcx1 hr i b hb (Or.inr h)
    simp only [runFrames]
    apply ih (animate M intensity tok s) _ _ _ b1 hb1 hband
    · rw [animate_canvas]; exact hcv
    · rw [animate_ctx_isSome]; exact hcx
    · exact unitDraws_of_draws_eq _ _ (animate_rng_draws M intensity tok s) hr

theorem sampleRng_unit : UnitDraws sampleRng := by
  intro n
  have h : n % 4 < 4 := Nat.mod_lt n (by decide)
  have h1 : ((n % 4 : Nat) : ℚ) < 4 := by exact_mod_cast h
  have h0 : (0 : ℚ) ≤ ((n % 4 : Nat) : ℚ) := Nat.cast_nonneg _
  simp only [sampleRng]
  constructor
  · positivity
  · rw [div_lt_one (by norm_num)]
    exact h1

/-! ### Beam lengths -/

theorem arrayFromCreateBeam_lengths (M : JsMath K) (width height : K) (n : Nat) (g : Rng K) :
    ∀ b ∈ (arrayFromCreateBeam M width height n g).1, b.length = height * 2.5 := by
  induction n generalizing g with
  | zero => simp [arrayFromCreateBeam]
  | succ n ih =>
    intro b hb
    simp only [arrayFromCreateBeam, List.mem_cons] at hb
    rcases hb with hb | hb
    · rw [hb]; rfl
    · exact ih _ b hb

theorem frameBeam_length (M : JsMath K) (intensity : Intensity) (canvas : Option (Canvas K))
    (totalBeams : Nat) (beam : Beam K) (index : Nat) (g : Rng K) :
    (frameBeam M intensity canvas totalBeams beam index g).beam.length = beam.length := by
  rw [frameBeam_beam]
  split
  · cases canvas <;> rfl
  · rfl

theorem forEachBeam_map_length (M : JsMath K) (intensity : Intensity)
    (canvas : Option (Canvas K)) (totalBeams : Nat) (beams : List (Beam K)) (index : Nat)
    (g : Rng K) :
    (forEachBeam M intensity canvas totalBeams index beams g).beams.map (fun b => b.length) =
      beams.map (fun b => b.length) := by
  induction beams generalizing index g with
  | nil => rfl
  | cons b rest ih =>
    simp only [forEachBeam, List.map_cons, ih, frameBeam_length]

theorem animate_map_length (M : JsMath K) (intensity : Intensity) (tok : Nat) (s : State K) :
    (animate M intensity tok s).beams.map (fun b => b.length) =
      s.beams.map (fun b => b.length) := by
  unfold animate
  split
  · exact forEachBeam_map_length M intensity s.canvas s.beams.length s.beams 0 s.rng
  · rfl

theorem animate_lengths (M : JsMath K) (intensity : Intensity) (tok : Nat) (s : State K) (c : K)
    (h : ∀ b ∈ s.beams, b.length = c) : ∀ b ∈ (animate M intensity tok s).beams, b.length = c := by
  intro b hb
  have h1 : b.length ∈ (animate M intensity tok s).beams.map (fun b => b.length) :=
    List.mem_map_of_mem (fun b => b.length) hb
  rw [animate_map_length, List.mem_map] at h1
  obtain ⟨b0, hb0, h0⟩ := h1
  rw [← h0]
  exact h b0 hb0

theorem animate_ctx_some (M : JsMath K) (intensity : Intensity) (tok : Nat) (s : State K)
    (cx : Ctx K) (h : s.ctx = some cx) : ∃ cx1, (animate M intensity tok s).ctx = some cx1 := by
  have h1 : (animate M intensity tok s).ctx.isSome = true := by
    rw [animate_ctx_isSome, h]; rfl
  exact Option.isSome_iff_exists.1 h1

theorem updateCanvasSize_lengths (M : JsMath K) (win : Window K) (canvas : Canvas K)
    (ctx : Ctx K) (s : State K) :
    ∀ b ∈ (updateCanvasSize M win canvas ctx s).beams,
      b.length = M.unsignedLong (win.innerHeight * devicePixelRatioOr1 win) * 2.5 := by
  intro b hb
  exact arrayFromCreateBeam_lengths M _ _ _ _ b hb

theorem updateCanvasSize_canvas (M : JsMath K) (win : Window K) (canvas : Canvas K)
    (ctx : Ctx K) (s : State K) :
    ∃ cv, (updateCanvasSize M win canvas ctx s).canvas = some cv ∧
      cv.width = M.unsignedLong (win.innerWidth * devicePixelRatioOr1 win) ∧
      cv.height = M.unsignedLong (win.innerHeight * devicePixelRatioOr1 win) :=
  ⟨_, rfl, rfl, rfl⟩

/-- The invariant of the mounted component: the constants `canvas` and `ctx`
are present, the resize listener is attached, and every beam is as long as
2.5 times the height of the surface. -/
theorem reachable_inv (M : JsMath K) (intensity : Intensity) (s : State K)
    (h : Reachable M intensity s) :
    ∃ cv cx, s.canvas = some cv ∧ s.ctx = some cx ∧ s.listening = true ∧
      ∀ b ∈ s.beams, b.length = cv.height * 2.5 := by
  induction h with
  | mount g canvas ctx win tok =>
    simp only [setup]
    obtain ⟨cx1, hcx1⟩ := animate_ctx_some M intensity tok
      { updateCanvasSize M win canvas ctx (init g) with listening := true } _ rfl
    obtain ⟨cv, hcv, _, hh⟩ := updateCanvasSize_canvas M win canvas ctx (init g)
    refine ⟨cv, cx1, ?_, hcx1, ?_, ?_⟩
    · rw [animate_canvas]; exact hcv
    · rw [animate_listening]
    · apply animate_lengths
      rw [hh]
      exact updateCanvasSize_lengths M win canvas ctx (init g)
  | step e s _ ih =>
    obtain ⟨cv, cx, hcv, hcx, hl, hlen⟩ := ih
    cases e with
    | frame fired tok =>
      simp only [step]
      split
      · obtain ⟨cx1, hcx1⟩ := animate_ctx_some M intensity tok
          { s with pending := s.pending.erase fired } cx hcx
        refine ⟨cv, cx1, ?_, hcx1, ?_, ?_⟩
        · rw [animate_canvas]; exact hcv
        · rw [animate_listening]; exact hl
        · apply animate_lengths
          exact hlen
      · exact ⟨cv, cx, hcv, hcx, hl, hlen⟩
    | resize win =>
      simp only [step, hl, if_true, hcv, hcx]
      exact ⟨_, _, rfl, rfl, hl, updateCanvasSize_lengths M win cv cx s⟩

/-! ## The claims -/

/-- C1: the pool holds exactly 30 beams (`MINIMUM_BEAMS * 1.5` with
`MINIMUM_BEAMS = 20`): `updateCanvasSize` yields a pool of length 30 from any
state, and every state reachable after a successful mount by frames and resize
events has a pool of length 30, as has the state after one more `animate()` or
one more event. -/
theorem pool_size_fixed (M : JsMath K) (intensity : Intensity) (s : State K)
    (h : Reachable M intensity s) :
    MINIMUM_BEAMS = 20 ∧ toLength (MINIMUM_BEAMS * 1.5) = 30 ∧
    s.beams.length = 30 ∧
    (∀ (win : Window K) (canvas : Canvas K) (ctx : Ctx K) (s0 : State K),
      (updateCanvasSize M win canvas ctx s0).beams.length = 30) ∧
    (∀ tok : Nat, (animate M intensity tok s).beams.length = 30) ∧
    (∀ e : Event K, (step M intensity e s).beams.length = 30) := by
  have hs := reachable_length M intensity s h
  refine ⟨rfl, toLength_totalBeams, hs, ?_, ?_, ?_⟩
  · intro win canvas ctx s0
    exact updateCanvasSize_length M win canvas ctx s0
  · intro tok
    rw [animate_length]
    exact hs
  · intro e
    exact step_length M intensity e s hs

/-- Witness of C1: the sample component after mount, one frame and one
resize. -/
theorem pool_size_fixed_witness :
    (step sampleMath Intensity.medium (Event.resize sampleWindow)
      (step sampleMath Intensity.medium (Event.frame 1 2) sampleMounted)).beams.length = 30 :=
  (pool_size_fixed sampleMath Intensity.medium _
    (Reachable.step _ _ (Reachable.step _ _
      (Reachable.mount sampleRng sampleCanvas sampleCtx sampleWindow 1)))).2.2.1

/-- C2: in one frame `resetBeam` is called for the beam at pool index `i`
exactly when, after the ascent `y := y - speed`, `y + length < -100`; it is
called at most once for that index, with the index `i` itself and the pool
length as arguments, and the beam the frame leaves at index `i` is the result
of that call (or the ascended beam when no call is made). -/
theorem reset_iff_off_top (M : JsMath K) (intensity : Intensity) (s : State K) (i : Nat)
    (b : Beam K) (hb : s.beams[i]? = some b) :
    ((∃ n, (i, n) ∈ (animateLoop M intensity s).resets) ↔
        (ascend b).y + (ascend b).length < -100) ∧
    (ascend b).y = b.y - b.speed ∧ (ascend b).length = b.length ∧
    (∀ n, (i, n) ∈ (animateLoop M intensity s).resets → n = s.beams.length) ∧
    (animateLoop M intensity s).resets.Nodup ∧
    ((animateLoop M intensity s).resets.countP (fun p => decide (p.1 = i)) ≤ 1) ∧
    (∃ g : Rng K, g.draws = s.rng.draws ∧
      (animateLoop M intensity s).beams[i]? =
        some (if (ascend b).y + (ascend b).length < -100 then
          (resetBeam s.canvas (ascend b) i s.beams.length g).1 else ascend b)) ∧
    (∀ (tok : Nat) (cv : Canvas K) (cx : Ctx K), s.canvas = some cv → s.ctx = some cx →
      (animate M intensity tok s).beams = (animateLoop M intensity s).beams) := by
  have hmem : ∀ n, (i, n) ∈ (animateLoop M intensity s).resets ↔
      n = s.beams.length ∧ (ascend b).y + (ascend b).length < -100 := by
    intro n
    unfold animateLoop
    rw [forEachBeam_resets_mem]
    constructor
    · rintro ⟨hn, j, b1, hb1, hi, ho⟩
      have hj : j = i := by omega
      subst hj
      rw [hb] at hb1
      cases hb1
      exact ⟨hn, by simpa [offTop] using ho⟩
    · rintro ⟨hn, ho⟩
      exact ⟨hn, i, b, hb, by omega, by simpa [offTop] using ho⟩
  have hnodup : (animateLoop M intensity s).resets.Nodup :=
    forEachBeam_resets_nodup M intensity s.canvas s.beams.length s.beams 0 s.rng
  refine ⟨?_, rfl, rfl, fun n hn => ((hmem n).1 hn).1, hnodup, ?_, ?_, ?_⟩
  · constructor
    · rintro ⟨n, hn⟩
      exact ((hmem n).1 hn).2
    · intro ho
      exact ⟨s.beams.length, (hmem _).2 ⟨rfl, ho⟩⟩
  · apply countP_le_one_of_nodup _ _ (i, s.beams.length) hnodup
    rintro ⟨p1, p2⟩ hp h1
    simp only [decide_eq_true_eq] at h1
    subst h1
    rw [((hmem p2).1 hp).1]
  · obtain ⟨g, hg, hget⟩ :=
      forEachBeam_get M intensity s.canvas s.beams.length s.beams 0 s.rng i b hb
    refine ⟨g, hg, ?_⟩
    unfold animateLoop
    rw [hget, frameBeam_beam]
    simp [offTop]
  · intro tok cv cx hcv hcx
    exact animate_beams M intensity tok s cv cx hcv hcx

/-- Witness of C2: index 0 of the sample pool, a beam that crosses the
threshold in this frame. -/
theorem reset_iff_off_top_witness :
    ((∃ n, (0, n) ∈ (animateLoop sampleMath Intensity.medium sampleRunning).resets) ↔
      (ascend sampleBeamHigh).y + (ascend sampleBeamHigh).length < -100) :=
  (reset_iff_off_top sampleMath Intensity.medium sampleRunning 0 sampleBeamHigh rfl).1

/-- C3: for a surface of size `W x H` (the canvas `cv`), a pool index `i`, a
pool size `N > 0` and the next four draws `r1..r4`, taken in the order x,
width, speed, opacity, `resetBeam(beam, i, N)` sets `y = H + 100`,
`x = (i mod 3)*(W/3) + (W/3)/2 + (r1 - 0.5)*(W/3)*0.5`, `width = 100 + 100*r2`,
`speed = 0.5 + 0.4*r3`, `hue = 210 + (i*50)/N` and `opacity = 0.2 + 0.1*r4`,
and leaves the random source four draws further. -/
theorem resetBeam_spec (cv : Canvas K) (beam : Beam K) (i N : Nat) (g : Rng K) (hN : 0 < N) :
    (resetBeam (some cv) beam i N g).1.y = cv.height + 100 ∧
    (resetBeam (some cv) beam i N g).1.x =
      ((i % 3 : Nat) : K) * (cv.width / 3) + (cv.width / 3) / 2 +
        (g.draws g.pos - 0.5) * (cv.width / 3) * 0.5 ∧
    (resetBeam (some cv) beam i N g).1.width = 100 + 100 * g.draws (g.pos + 1) ∧
    (resetBeam (some cv) beam i N g).1.speed = 0.5 + 0.4 * g.draws (g.pos + 2) ∧
    (resetBeam (some cv) beam i N g).1.hue = 210 + ((i : K) * 50) / (N : K) ∧
    (resetBeam (some cv) beam i N g).1.opacity = 0.2 + 0.1 * g.draws (g.pos + 3) ∧
    (resetBeam (some cv) beam i N g).2.draws = g.draws ∧
    (resetBeam (some cv) beam i N g).2.pos = g.pos + 4 := by
  have _ := hN
  refine ⟨rfl, ?_, ?_, ?_, resetBeam_hue cv beam i N g, ?_, rfl, rfl⟩
  · simp [resetBeam, Rng.get]
  · simp [resetBeam, Rng.get, mul_comm]
  · simp [resetBeam, Rng.get, mul_comm]
  · simp [resetBeam, Rng.get, mul_comm]

/-- Witness of C3: index 4 of a pool of 30 on the sample surface. -/
theorem resetBeam_spec_witness :
    (resetBeam (some sampleCanvas) sampleBeamHigh 4 30 sampleRng).1.y = sampleCanvas.height + 100 :=
  (resetBeam_spec sampleCanvas sampleBeamHigh 4 30 sampleRng (by decide)).1

/-- C4: `resetBeam` leaves `angle`, `length`, `pulse` and `pulseSpeed` of the
beam as they were, for every beam, index and pool size (the six other fields
are the ones it writes). -/
theorem resetBeam_keeps (canvas : Option (Canvas K)) (beam : Beam K) (i N : Nat) (g : Rng K) :
    (resetBeam canvas beam i N g).1.angle = beam.angle ∧
    (resetBeam canvas beam i N g).1.length = beam.length ∧
    (resetBeam canvas beam i N g).1.pulse = beam.pulse ∧
    (resetBeam canvas beam i N g).1.pulseSpeed = beam.pulseSpeed := by
  cases canvas <;> exact ⟨rfl, rfl, rfl, rfl⟩

/-- C6: the hue written by `resetBeam(beam, i, N)` is `210 + i*50/N`; it is the
same for any other surface, beam and random source; it is 210 for `i = 0` and
`210 + 50*(N-1)/N` for `i = N-1`; for `i < N` it lies in `[210, 260)`; and it
is strictly increasing in `i`. -/
theorem resetBeam_hue_spec (cv : Canvas K) (beam : Beam K) (i N : Nat) (g : Rng K)
    (hN : 0 < N) :
    (resetBeam (some cv) beam i N g).1.hue = 210 + (i : K) * 50 / (N : K) ∧
    (∀ (cv1 : Canvas K) (beam1 : Beam K) (g1 : Rng K),
      (resetBeam (some cv1) beam1 i N g1).1.hue = (resetBeam (some cv) beam i N g).1.hue) ∧
    (resetBeam (some cv) beam 0 N g).1.hue = 210 ∧
    (resetBeam (some cv) beam (N - 1) N g).1.hue = 210 + 50 * ((N : K) - 1) / (N : K) ∧
    (i < N → 210 ≤ (resetBeam (some cv) beam i N g).1.hue ∧
      (resetBeam (some cv) beam i N g).1.hue < 260) ∧
    (∀ j : Nat, i < j →
      (resetBeam (some cv) beam i N g).1.hue < (resetBeam (some cv) beam j N g).1.hue) := by
  have hNK : (0 : K) < (N : K) := by exact_mod_cast hN
  refine ⟨resetBeam_hue cv beam i N g, ?_, ?_, ?_, ?_, ?_⟩
  · intro cv1 beam1 g1
    rw [resetBeam_hue, resetBeam_hue]
  · rw [resetBeam_hue]
    simp
  · rw [resetBeam_hue, Nat.cast_sub hN]
    simp [mul_comm]
  · intro hi
    have hiK : (i : K) < (N : K) := by exact_mod_cast hi
    have h0 : (0 : K) ≤ (i : K) := Nat.cast_nonneg i
    rw [resetBeam_hue]
    constructor
    · have : (0 : K) ≤ (i : K) * 50 / (N : K) := by positivity
      linarith
    · have : (i : K) * 50 / (N : K) < 50 := by
        rw [div_lt_iff₀ hNK]
        linarith
      linarith
  · intro j hij
    have hijK : (i : K) < (j : K) := by exact_mod_cast hij
    rw [resetBeam_hue, resetBeam_hue]
    have : (i : K) * 50 / (N : K) < (j : K) * 50 / (N : K) := by
      apply div_lt_div_of_pos_right _ hNK
      linarith
    linarith

/-- Witness of C6: index 29 of a pool of 30. -/
theorem resetBeam_hue_spec_witness :
    (resetBeam (some sampleCanvas) sampleBeamHigh 29 30 sampleRng).1.hue =
      210 + ((29 : Nat) : ℚ) * 50 / ((30 : Nat) : ℚ) :=
  (resetBeam_hue_spec sampleCanvas sampleBeamHigh 29 30 sampleRng (by decide)).1

/-- C7: for a surface of size `W x H` and the next nine draws `r1..r9`, taken
in the order angle, x, y, width, speed, opacity, hue, pulse, pulseSpeed,
`createBeam(W, H)` returns `angle = -35 + 10*r1`, `x = r2*W*1.5 - W*0.25`,
`y = r3*H*1.5 - H*0.25`, `width = 30 + 60*r4`, `length = H*2.5`,
`speed = 0.6 + 1.2*r5`, `opacity = 0.12 + 0.16*r6`, `hue = 210 + 50*r7`,
`pulse = r8*2*pi` and `pulseSpeed = 0.02 + 0.03*r9`, and leaves the random
source nine draws further. -/
theorem createBeam_spec (M : JsMath K) (W H : K) (g : Rng K) :
    (createBeam M W H g).1.angle = -35 + 10 * g.draws g.pos ∧
    (createBeam M W H g).1.x = g.draws (g.pos + 1) * W * 1.5 - W * 0.25 ∧
    (createBeam M W H g).1.y = g.draws (g.pos + 2) * H * 1.5 - H * 0.25 ∧
    (createBeam M W H g).1.width = 30 + 60 * g.draws (g.pos + 3) ∧
    (createBeam M W H g).1.length = H * 2.5 ∧
    (createBeam M W H g).1.speed = 0.6 + 1.2 * g.draws (g.pos + 4) ∧
    (createBeam M W H g).1.opacity = 0.12 + 0.16 * g.draws (g.pos + 5) ∧
    (createBeam M W H g).1.hue = 210 + 50 * g.draws (g.pos + 6) ∧
    (createBeam M W H g).1.pulse = g.draws (g.pos + 7) * 2 * M.PI ∧
    (createBeam M W H g).1.pulseSpeed = 0.02 + 0.03 * g.draws (g.pos + 8) ∧
    (createBeam M W H g).2.draws = g.draws ∧
    (createBeam M W H g).2.pos = g.pos + 9 := by
  refine ⟨?_, rfl, rfl, ?_, rfl, ?_, ?_, ?_, ?_, ?_, rfl, rfl⟩
  · simp [createBeam, Rng.get, mul_comm]
  · simp [createBeam, Rng.get, mul_comm]
  · simp [createBeam, Rng.get, mul_comm]
  · simp [createBeam, Rng.get, mul_comm]
  · simp [createBeam, Rng.get, hueBase, hueRange, isDarkMode, mul_comm]
  · simp only [createBeam, Rng.get]
    ring
  · simp [createBeam, Rng.get, mul_comm]

/-- C5 (amended): when the frame run on a state `s` recycles the beam at index
`i` (whatever the beam held before), then after that frame and after any
number of further frames with no resize in between the beam at index `i` has
width in `[100, 200]`, speed in `[0.5, 0.9)` and opacity in `[0.2, 0.3]`. -/
theorem recycle_band_invariant (M : JsMath K) (intensity : Intensity) (s : State K)
    (cv : Canvas K) (cx : Ctx K) (hcv : s.canvas = some cv) (hcx : s.ctx = some cx)
    (hr : UnitDraws s.rng) (i n tok : Nat)
    (hreset : (i, n) ∈ (animateLoop M intensity s).resets) (toks : List Nat) :
    ∃ b : Beam K,
      (runFrames M intensity toks (animate M intensity tok s)).beams[i]? = some b ∧
      100 ≤ b.width ∧ b.width ≤ 200 ∧ 0.5 ≤ b.speed ∧ b.speed < 0.9 ∧
      0.2 ≤ b.opacity ∧ b.opacity ≤ 0.3 := by
  unfold animateLoop at hreset
  rw [forEachBeam_resets_mem] at hreset
  obtain ⟨_, j, b0, hb0, hi, ho⟩ := hreset
  have hj : j = i := by omega
  subst hj
  obtain ⟨b1, hb1, hband⟩ :=
    animate_band M intensity tok s cv cx hcv hcx hr j b0 hb0 (Or.inl ho)
  have hfin : ∃ b : Beam K,
      (runFrames M intensity toks (animate M intensity tok s)).beams[j]? = some b ∧
      InRecycleBand b := by
    apply runFrames_band M intensity toks (animate M intensity tok s) _ _ _ j b1 hb1 hband
    · rw [animate_canvas, hcv]; rfl
    · rw [animate_ctx_isSome, hcx]; rfl
    · exact unitDraws_of_draws_eq _ _ (animate_rng_draws M intensity tok s) hr
  obtain ⟨b, hb, h1, h2, h3, h4, h5, h6⟩ := hfin
  exact ⟨b, hb, h1, le_of_lt h2, h3, h4, h5, le_of_lt h6⟩

/-- Witness of C5 (amended): the sample pool, whose beam 0 is recycled by the
first frame, after that frame and two more. -/
theorem recycle_band_invariant_witness :
    ∃ b : Beam ℚ,
      (runFrames sampleMath Intensity.medium [3, 4]
        (animate sampleMath Intensity.medium 2 sampleRunning)).beams[0]? = some b ∧
      100 ≤ b.width ∧ b.width ≤ 200 ∧ 0.5 ≤ b.speed ∧ b.speed < 0.9 ∧
      0.2 ≤ b.opacity ∧ b.opacity ≤ 0.3 :=
  recycle_band_invariant sampleMath Intensity.medium sampleRunning _ _ rfl rfl sampleRng_unit
    0 2 2
    (by norm_num [animateLoop, forEachBeam, frameBeam, offTop, ascend, sampleRunning,
      sampleBeamHigh, sampleBeamMid])
    [3, 4]

/-- C8: in every state reachable after mount by frames and resizes, every beam
is as long as 2.5 times the height `H` of the surface (`canvas.height`, which
only `updateCanvasSize` writes and which it passes to `createBeam`); a frame
changes neither the surface nor any beam length, `resetBeam` keeps the length,
and a resize gives every beam the length 2.5 times the new surface height. -/
theorem beam_length_invariant (M : JsMath K) (intensity : Intensity) (s : State K)
    (h : Reachable M intensity s) :
    ∃ cv : Canvas K, s.canvas = some cv ∧
      (∀ b ∈ s.beams, b.length = 2.5 * cv.height) ∧
      (∀ tok : Nat, (animate M intensity tok s).canvas = some cv ∧
        (animate M intensity tok s).beams.map (fun b => b.length) =
          s.beams.map (fun b => b.length)) ∧
      (∀ (canvas : Option (Canvas K)) (beam : Beam K) (i N : Nat) (g : Rng K),
        (resetBeam canvas beam i N g).1.length = beam.length) ∧
      (∀ win : Window K, ∃ cv1 : Canvas K,
        (step M intensity (Event.resize win) s).canvas = some cv1 ∧
        ∀ b ∈ (step M intensity (Event.resize win) s).beams, b.length = 2.5 * cv1.height) := by
  obtain ⟨cv, cx, hcv, hcx, hl, hlen⟩ := reachable_inv M intensity s h
  refine ⟨cv, hcv, ?_, ?_, ?_, ?_⟩
  · intro b hb
    rw [hlen b hb, mul_comm]
  · intro tok
    exact ⟨by rw [animate_canvas]; exact hcv, animate_map_length M intensity tok s⟩
  · intro canvas beam i N g
    cases canvas <;> rfl
  · intro win
    simp only [step, hl, if_true, hcv, hcx]
    refine ⟨_, rfl, ?_⟩
    intro b hb
    rw [updateCanvasSize_lengths M win cv cx s b hb, mul_comm]

/-- Witness of C8: the sample component after mount and one frame. -/
theorem beam_length_invariant_witness :
    ∃ cv : Canvas ℚ,
      (step sampleMath Intensity.medium (Event.frame 1 2) sampleMounted).canvas = some cv ∧
      ∀ b ∈ (step sampleMath Intensity.medium (Event.frame 1 2) sampleMounted).beams,
        b.length = 2.5 * cv.height :=
  let ⟨cv, hcv, hlen, _⟩ := beam_length_invariant sampleMath Intensity.medium _
    (Reachable.step (Event.frame 1 2) _
      (Reachable.mount sampleRng sampleCanvas sampleCtx sampleWindow 1))
  ⟨cv, hcv, hlen⟩

/-- C9: in one frame, the beam at every pool index gets `pulse + pulseSpeed`
as its pulse, recycled or not; when `resetBeam` is not called for it, its `y`
becomes `y - speed` and its x, width, length, angle, speed, opacity, hue and
pulseSpeed stay as they were. -/
theorem frame_update (M : JsMath K) (intensity : Intensity) (tok : Nat) (s : State K)
    (cv : Canvas K) (cx : Ctx K) (hcv : s.canvas = some cv) (hcx : s.ctx = some cx)
    (i : Nat) (b : Beam K) (hb : s.beams[i]? = some b) :
    ∃ b1 : Beam K, (animate M intensity tok s).beams[i]? = some b1 ∧
      b1.pulse = b.pulse + b.pulseSpeed ∧
      ((∀ n, (i, n) ∉ (animateLoop M intensity s).resets) →
        b1.y = b.y - b.speed ∧ b1.x = b.x ∧ b1.width = b.width ∧ b1.length = b.length ∧
        b1.angle = b.angle ∧ b1.speed = b.speed ∧ b1.opacity = b.opacity ∧ b1.hue = b.hue ∧
        b1.pulseSpeed = b.pulseSpeed) := by
  obtain ⟨g, _, hget⟩ := animate_get M intensity tok s cv cx hcv hcx i b hb
  refine ⟨_, hget, ?_, ?_⟩
  · rw [frameBeam_beam]
    split <;> rfl
  · intro hno
    have ho : ¬ offTop (ascend b) = true := by
      intro ho
      apply hno s.beams.length
      unfold animateLoop
      rw [forEachBeam_resets_mem]
      exact ⟨rfl, i, b, hb, by omega, ho⟩
    rw [frameBeam_beam, if_neg ho]
    exact ⟨rfl, rfl, rfl, rfl, rfl, rfl, rfl, rfl, rfl⟩

/-- Witness of C9: index 1 of the sample pool. -/
theorem frame_update_witness :
    ∃ b1 : Beam ℚ, (animate sampleMath Intensity.medium 2 sampleRunning).beams[1]? = some b1 ∧
      b1.pulse = sampleBeamMid.pulse + sampleBeamMid.pulseSpeed :=
  let ⟨b1, h1, h2, _⟩ := frame_update sampleMath Intensity.medium 2 sampleRunning _ _ rfl rfl 1
    sampleBeamMid rfl
  ⟨b1, h1, h2⟩

/-- C10: the alpha that `drawBeam` uses is
`opacity * (0.8 + sin(pulse)*0.2) * factor`, with factor 0.7 for subtle, 0.85
for medium and 1 for strong; it is the alpha of the stops at 0.4 and 0.6, and
half of it is the alpha of the stops at 0.1 and 0.9; strong is taken when no
intensity is supplied and the host page supplies medium; and for opacity 0.2,
pulse 0 (with `sin 0 = 0`) and the intensity of the host page the alpha is
`0.2 * 0.8 * 0.85 = 0.136`. -/
theorem pulsing_alpha (M : JsMath K) (intensity : Intensity) (beam b0 : Beam K)
    (hsin : M.sin 0 = 0) (hopacity : b0.opacity = 0.2) (hpulse : b0.pulse = 0) :
    pulsingOpacity M intensity beam =
      beam.opacity * (0.8 + M.sin beam.pulse * 0.2) * opacityMap intensity ∧
    (drawBeam M intensity beam).stops.map (fun c => (c.offset, c.alpha)) =
      [(0, 0), (0.1, pulsingOpacity M intensity beam * 0.5),
       (0.4, pulsingOpacity M intensity beam), (0.6, pulsingOpacity M intensity beam),
       (0.9, pulsingOpacity M intensity beam * 0.5), (1, 0)] ∧
    (opacityMap Intensity.subtle : K) = 0.7 ∧ (opacityMap Intensity.medium : K) = 0.85 ∧
    (opacityMap Intensity.strong : K) = 1 ∧
    intensityProp none = Intensity.strong ∧ intensityProp hostIntensity = Intensity.medium ∧
    pulsingOpacity M (intensityProp hostIntensity) b0 = 0.2 * 0.8 * 0.85 ∧
    pulsingOpacity M (intensityProp hostIntensity) b0 = 0.136 := by
  refine ⟨rfl, rfl, rfl, rfl, rfl, rfl, rfl, ?_, ?_⟩
  · simp only [pulsingOpacity, hopacity, hpulse, hsin, intensityProp, hostIntensity, opacityMap]
    norm_num
  · simp only [pulsingOpacity, hopacity, hpulse, hsin, intensityProp, hostIntensity, opacityMap]
    norm_num

/-- Witness of C10: a beam of opacity 1/5 and pulse 0 on the sample host. -/
theorem pulsing_alpha_witness :
    pulsingOpacity sampleMath (intensityProp hostIntensity)
      { sampleBeamMid with opacity := 1 / 5, pulse := 0 } = 0.136 :=
  (pulsing_alpha sampleMath Intensity.strong sampleBeamMid
    { sampleBeamMid with opacity := 1 / 5, pulse := 0 } rfl (by norm_num) rfl).2.2.2.2.2.2.2.2

/-! ## Auxiliary facts on resize and teardown -/

theorem createBeam_congr (M : JsMath K) (width height : K) (g1 g2 : Rng K)
    (h : ∀ k, g1.get k = g2.get k) :
    (createBeam M width height g1).1 = (createBeam M width height g2).1 := by
  simp only [createBeam, h]

theorem arrayFromCreateBeam_congr (M : JsMath K) (width height : K) (n : Nat) (g1 g2 : Rng K)
    (h : ∀ k, g1.get k = g2.get k) :
    (arrayFromCreateBeam M width height n g1).1 = (arrayFromCreateBeam M width height n g2).1 := by
  induction n generalizing g1 g2 with
  | zero => rfl
  | succ n ih =>
    simp only [arrayFromCreateBeam]
    rw [createBeam_congr M width height g1 g2 h]
    congr 1
    apply ih
    intro k
    have hk := h (9 + k)
    simpa [createBeam, Rng.skip, Rng.get, Nat.add_assoc] using hk

theorem updateCanvasSize_beams (M : JsMath K) (win : Window K) (canvas : Canvas K)
    (ctx : Ctx K) (s : State K) :
    (updateCanvasSize M win canvas ctx s).beams =
      (arrayFromCreateBeam M (M.unsignedLong (win.innerWidth * devicePixelRatioOr1 win))
        (M.unsignedLong (win.innerHeight * devicePixelRatioOr1 win)) 30 s.rng).1 := by
  simp only [updateCanvasSize, toLength_totalBeams]

theorem step_resize (M : JsMath K) (intensity : Intensity) (win : Window K) (s : State K)
    (cv : Canvas K) (cx : Ctx K) (hcv : s.canvas = some cv) (hcx : s.ctx = some cx)
    (hl : s.listening = true) :
    step M intensity (Event.resize win) s = updateCanvasSize M win cv cx s := by
  simp only [step, hl, if_true, hcv, hcx]

theorem animate_pending (M : JsMath K) (intensity : Intensity) (tok : Nat) (s : State K)
    (cv : Canvas K) (cx : Ctx K) (hcv : s.canvas = some cv) (hcx : s.ctx = some cx) :
    (animate M intensity tok s).pending = s.pending ++ [tok] ∧
      (animate M intensity tok s).animationFrameRef = tok := by
  simp [animate, hcv, hcx]

/-- In a mounted component exactly one frame request is pending, and its token
is the one stored in `animationFrameRef`. -/
theorem reachable_pending (M : JsMath K) (intensity : Intensity) (s : State K)
    (h : Reachable M intensity s) : s.pending = [s.animationFrameRef] := by
  induction h with
  | mount g canvas ctx win tok =>
    simp only [setup]
    obtain ⟨hp, hr⟩ := animate_pending M intensity tok
      { updateCanvasSize M win canvas ctx (init g) with listening := true } _ _ rfl rfl
    rw [hp, hr]
    rfl
  | step e s hs ih =>
    obtain ⟨cv, cx, hcv, hcx, hl, _⟩ := reachable_inv M intensity s hs
    cases e with
    | frame fired tok =>
      simp only [step]
      split
      · next hmem =>
        rw [ih, List.mem_singleton] at hmem
        obtain ⟨hp, hr⟩ := animate_pending M intensity tok
          { s with pending := s.pending.erase fired } cv cx hcv hcx
        rw [hp, hr, ih, hmem]
        simp
      · exact ih
    | resize win =>
      rw [step_resize M intensity win s cv cx hcv hcx hl]
      exact ih

theorem cleanup_beams {F : Type} (s : State F) : (cleanup s).beams = s.beams := by
  by_cases h : s.animationFrameRef = 0 <;> simp [cleanup, h]

theorem cleanup_canvas {F : Type} (s : State F) : (cleanup s).canvas = s.canvas := by
  by_cases h : s.animationFrameRef = 0 <;> simp [cleanup, h]

theorem cleanup_ctx {F : Type} (s : State F) : (cleanup s).ctx = s.ctx := by
  by_cases h : s.animationFrameRef = 0 <;> simp [cleanup, h]

theorem cleanup_listening {F : Type} (s : State F) : (cleanup s).listening = false := by
  by_cases h : s.animationFrameRef = 0 <;> simp [cleanup, h]

theorem cleanup_pending_of_ne {F : Type} (s : State F) (h : s.animationFrameRef ≠ 0) :
    (cleanup s).pending = s.pending.erase s.animationFrameRef := by
  simp [cleanup, h]

theorem cleanup_pending_of_eq {F : Type} (s : State F) (h : s.animationFrameRef = 0) :
    (cleanup s).pending = s.pending := by
  simp [cleanup, h]

theorem step_idle (M : JsMath K) (intensity : Intensity) (e : Event K) (s : State K)
    (hp : s.pending = []) (hl : s.listening = false) : step M intensity e s = s := by
  cases e with
  | frame fired tok => simp [step, hp]
  | resize win => simp [step, hl]

theorem runEvents_idle (M : JsMath K) (intensity : Intensity) (es : List (Event K))
    (s : State K) (hp : s.pending = []) (hl : s.listening = false) :
    runEvents M intensity es s = s := by
  induction es with
  | nil => rfl
  | cons e es ih =>
    simp only [runEvents]
    rw [step_idle M intensity e s hp hl]
    exact ih

theorem animate_pulse (M : JsMath K) (intensity : Intensity) (tok : Nat) (s : State K)
    (cv : Canvas K) (cx : Ctx K) (hcv : s.canvas = some cv) (hcx : s.ctx = some cx)
    (i : Nat) (b : Beam K) (hb : s.beams[i]? = some b) :
    ∃ b1 : Beam K, (animate M intensity tok s).beams[i]? = some b1 ∧
      b1.pulse = b.pulse + b.pulseSpeed ∧ b1.pulseSpeed = b.pulseSpeed := by
  obtain ⟨g, _, hget⟩ := animate_get M intensity tok s cv cx hcv hcx i b hb
  refine ⟨_, hget, ?_, ?_⟩
  · rw [frameBeam_beam]
    split <;> rfl
  · rw [frameBeam_beam]
    split <;> rfl

theorem updateCanvasSize_head (M : JsMath K) (win : Window K) (canvas : Canvas K)
    (ctx : Ctx K) (s : State K) :
    (updateCanvasSize M win canvas ctx s).beams[0]? =
      some (createBeam M (M.unsignedLong (win.innerWidth * devicePixelRatioOr1 win))
        (M.unsignedLong (win.innerHeight * devicePixelRatioOr1 win)) s.rng).1 := by
  rw [updateCanvasSize_beams]
  rfl

theorem arrayFromCreateBeam_mem (M : JsMath K) (width height : K) (n : Nat) (g : Rng K) :
    ∀ b ∈ (arrayFromCreateBeam M width height n g).1,
      ∃ g1 : Rng K, g1.draws = g.draws ∧ b = (createBeam M width height g1).1 := by
  induction n generalizing g with
  | zero => simp [arrayFromCreateBeam]
  | succ n ih =>
    intro b hb
    simp only [arrayFromCreateBeam, List.mem_cons] at hb
    rcases hb with hb | hb
    · exact ⟨g, rfl, hb⟩
    · obtain ⟨g1, hg1, hb1⟩ := ih _ b hb
      exact ⟨g1, hg1, hb1⟩

theorem forEachBeam_draws (M : JsMath K) (intensity : Intensity) (canvas : Option (Canvas K))
    (totalBeams : Nat) (beams : List (Beam K)) (index : Nat) (g : Rng K) :
    (forEachBeam M intensity canvas totalBeams index beams g).draws =
      (forEachBeam M intensity canvas totalBeams index beams g).beams.map
        (drawBeam M intensity) := by
  induction beams generalizing index g with
  | nil => rfl
  | cons b rest ih =>
    simp only [forEachBeam, List.map_cons, ih, frameBeam_draw]

theorem animate_ops (M : JsMath K) (intensity : Intensity) (tok : Nat) (s : State K)
    (cv : Canvas K) (cx : Ctx K) (hcv : s.canvas = some cv) (hcx : s.ctx = some cx) :
    (animate M intensity tok s).ctx =
      some { cx with filter := "blur(35px)", ops := (animateLoop M intensity s).draws } := by
  simp [animate, hcv, hcx]

theorem createBeam_hue (M : JsMath K) (W H : K) (g : Rng K) :
    (createBeam M W H g).1.hue = 210 + g.draws (g.pos + 6) * 50 := by
  simp [createBeam, Rng.get, hueBase, hueRange, isDarkMode]

/-! ## The claims, continued -/

/-- C11: the pool that a resize produces depends on the window and on the
next draws of the random source only: two runs of `updateCanvasSize` with the
same window and the same next draws, from any two states (any two previous
pools, surfaces and contexts), yield the same pool, and a resize event on a
mounted component is such a run. -/
theorem resize_replaces_pool (M : JsMath K) (intensity : Intensity) (win : Window K)
    (cv1 cv2 : Canvas K) (cx1 cx2 : Ctx K) (s1 s2 : State K)
    (hdraws : ∀ k, s1.rng.get k = s2.rng.get k) :
    (updateCanvasSize M win cv1 cx1 s1).beams = (updateCanvasSize M win cv2 cx2 s2).beams ∧
    (s1.canvas = some cv1 → s1.ctx = some cx1 → s1.listening = true →
      s2.canvas = some cv2 → s2.ctx = some cx2 → s2.listening = true →
      (step M intensity (Event.resize win) s1).beams =
        (step M intensity (Event.resize win) s2).beams) := by
  have h : (updateCanvasSize M win cv1 cx1 s1).beams =
      (updateCanvasSize M win cv2 cx2 s2).beams := by
    rw [updateCanvasSize_beams, updateCanvasSize_beams]
    exact arrayFromCreateBeam_congr M _ _ 30 s1.rng s2.rng hdraws
  refine ⟨h, ?_⟩
  intro h1 h2 h3 h4 h5 h6
  rw [step_resize M intensity win s1 cv1 cx1 h1 h2 h3,
    step_resize M intensity win s2 cv2 cx2 h4 h5 h6]
  exact h

/-- Witness of C11: two running components with different pools whose random
sources give the same next draws. -/
theorem resize_replaces_pool_witness :
    sampleRunning.beams ≠ sampleOther.beams ∧
    (step sampleMath Intensity.medium (Event.resize sampleWindow) sampleRunning).beams =
      (step sampleMath Intensity.medium (Event.resize sampleWindow) sampleOther).beams :=
  ⟨by simp [sampleRunning, sampleOther],
    (resize_replaces_pool sampleMath Intensity.medium sampleWindow _ _ sampleCtx sampleCtx
      sampleRunning sampleOther
      (by intro k; simp [Rng.get, sampleRunning, sampleOther, sampleRng, Nat.add_mod])).2
      rfl rfl rfl rfl rfl rfl⟩

/-- C13: when `canvasRef.current` is absent or `getContext("2d")` returns
null, the effect returns the state as it found it; for a component whose
effect has not run this is: no canvas or context bound, an empty pool, no
resize listener, no pending frame request and `animationFrameRef` still 0. -/
theorem setup_aborts (M : JsMath K) (intensity : Intensity) (canvasRef : Option (Canvas K))
    (getContext : Option (Ctx K)) (win : Window K) (tok : Nat) (s : State K) (g : Rng K)
    (h : canvasRef = none ∨ getContext = none) :
    setup M intensity canvasRef getContext win tok s = s ∧
    (setup M intensity canvasRef getContext win tok (init g)).beams = [] ∧
    (setup M intensity canvasRef getContext win tok (init g)).listening = false ∧
    (setup M intensity canvasRef getContext win tok (init g)).pending = [] ∧
    (setup M intensity canvasRef getContext win tok (init g)).ctx = none ∧
    (setup M intensity canvasRef getContext win tok (init g)).canvas = none ∧
    (setup M intensity canvasRef getContext win tok (init g)).animationFrameRef = 0 ∧
    (setup M intensity canvasRef getContext win tok (init g)).rng = g := by
  have hs : ∀ s0 : State K, setup M intensity canvasRef getContext win tok s0 = s0 := by
    intro s0
    rcases h with h | h
    · subst h
      rfl
    · subst h
      cases canvasRef <;> rfl
  rw [hs (init g)]
  exact ⟨hs s, rfl, rfl, rfl, rfl, rfl, rfl, rfl⟩

/-- Witness of C13: a canvas whose context cannot be acquired. -/
theorem setup_aborts_witness :
    (setup sampleMath Intensity.medium (some sampleCanvas) none sampleWindow 1
      (init sampleRng)).beams = [] :=
  (setup_aborts sampleMath Intensity.medium (some sampleCanvas) none sampleWindow 1
    (init sampleRng) sampleRng (Or.inr rfl)).2.1

/-- C12: for a mounted component and every token the host may have returned
for its last frame request (request handles are not 0), the cleanup removes
the resize listener and cancels the pending frame request, so that nothing is
pending; the cleanup itself leaves the pool as it is, and every later sequence
of host events (frames, resizes) leaves the whole state, the pool included, as
the cleanup left it: no `animate()` runs and no resize rebuilds the pool. -/
theorem teardown_stops (M : JsMath K) (intensity : Intensity) (s : State K)
    (h : Reachable M intensity s) (hne : s.animationFrameRef ≠ 0) (es : List (Event K)) :
    (cleanup s).listening = false ∧ (cleanup s).pending = [] ∧
    (cleanup s).beams = s.beams ∧
    runEvents M intensity es (cleanup s) = cleanup s ∧
    (runEvents M intensity es (cleanup s)).beams = s.beams := by
  have hp : (cleanup s).pending = [] := by
    rw [cleanup_pending_of_ne s hne, reachable_pending M intensity s h]
    simp
  have hrun := runEvents_idle M intensity es (cleanup s) hp (cleanup_listening s)
  refine ⟨cleanup_listening s, hp, cleanup_beams s, hrun, ?_⟩
  rw [hrun, cleanup_beams]

/-- Witness of C12: the sample component, mounted with token 1, torn
down and then sent the frame 1 and a resize. -/
theorem teardown_stops_witness :
    runEvents sampleMath Intensity.medium [Event.frame 1 2, Event.resize sampleWindow]
      (cleanup sampleMounted) = cleanup sampleMounted :=
  (teardown_stops sampleMath Intensity.medium sampleMounted
    (Reachable.mount sampleRng sampleCanvas sampleCtx sampleWindow 1)
    (by
      have href : sampleMounted.animationFrameRef = 1 :=
        (animate_pending sampleMath Intensity.medium 1
          { updateCanvasSize sampleMath sampleWindow sampleCanvas sampleCtx (init sampleRng) with
            listening := true } _ _ rfl rfl).2
      rw [href]
      decide)
    [Event.frame 1 2, Event.resize sampleWindow]).2.2.2.1

/-- C14 (counterexample): for a window of 1001 x 801 with device pixel ratio
1.5 and a canvas that truncates, `updateCanvasSize` leaves a surface of
1501 x 1201 pixels, not of `1001 * 1.5 = 1501.5` by `801 * 1.5 = 1201.5`, and
every beam of the pool has the length `1201 * 2.5` of a beam created for the
height 1201. -/
theorem surface_size_truncated :
    sampleWindowFrac.innerWidth * devicePixelRatioOr1 sampleWindowFrac = 3003 / 2 ∧
    sampleWindowFrac.innerHeight * devicePixelRatioOr1 sampleWindowFrac = 2403 / 2 ∧
    ∃ cv : Canvas ℚ,
      (updateCanvasSize sampleMath sampleWindowFrac sampleCanvas sampleCtx
        (init sampleRng)).canvas = some cv ∧
      cv.width = 1501 ∧ cv.height = 1201 ∧
      cv.width ≠ sampleWindowFrac.innerWidth * devicePixelRatioOr1 sampleWindowFrac ∧
      cv.height ≠ sampleWindowFrac.innerHeight * devicePixelRatioOr1 sampleWindowFrac ∧
      ∀ b ∈ (updateCanvasSize sampleMath sampleWindowFrac sampleCanvas sampleCtx
        (init sampleRng)).beams, b.length = 1201 * 2.5 := by
  have hw : sampleMath.unsignedLong
      (sampleWindowFrac.innerWidth * devicePixelRatioOr1 sampleWindowFrac) = 1501 := by
    decide!
  have hh : sampleMath.unsignedLong
      (sampleWindowFrac.innerHeight * devicePixelRatioOr1 sampleWindowFrac) = 1201 := by
    decide!
  have hw0 : sampleWindowFrac.innerWidth * devicePixelRatioOr1 sampleWindowFrac = 3003 / 2 := by
    decide!
  have hh0 : sampleWindowFrac.innerHeight * devicePixelRatioOr1 sampleWindowFrac = 2403 / 2 := by
    decide!
  obtain ⟨cv, hcv, h1, h2⟩ :=
    updateCanvasSize_canvas sampleMath sampleWindowFrac sampleCanvas sampleCtx (init sampleRng)
  rw [hw] at h1
  rw [hh] at h2
  refine ⟨hw0, hh0, cv, hcv, h1, h2, ?_, ?_, ?_⟩
  · rw [h1, hw0]
    norm_num
  · rw [h2, hh0]
    norm_num
  · intro b hb
    rw [updateCanvasSize_lengths sampleMath sampleWindowFrac sampleCanvas sampleCtx
      (init sampleRng) b hb, hh]

/-- C14 (amended): `updateCanvasSize` assigns `innerWidth * dpr` and
`innerHeight * dpr` to `canvas.width` and `canvas.height`, where `dpr` is
`devicePixelRatio`, or 1 when that is zero or not defined; the surface has the
values that the canvas element stores for them, and every beam of the new pool
is a result of `createBeam` for exactly the stored width and height; this is
what the mount runs before its first frame and what a resize event runs on a
mounted component. -/
theorem updateCanvasSize_surface (M : JsMath K) (intensity : Intensity) (win : Window K)
    (canvas : Canvas K) (ctx : Ctx K) (s0 s : State K) (tok : Nat)
    (h : Reachable M intensity s) :
    (∀ d : K, win.devicePixelRatio = some d → d ≠ 0 → devicePixelRatioOr1 win = d) ∧
    (win.devicePixelRatio = some 0 → devicePixelRatioOr1 win = 1) ∧
    (win.devicePixelRatio = none → devicePixelRatioOr1 win = 1) ∧
    (∃ cv : Canvas K, (updateCanvasSize M win canvas ctx s0).canvas = some cv ∧
      cv.width = M.unsignedLong (win.innerWidth * devicePixelRatioOr1 win) ∧
      cv.height = M.unsignedLong (win.innerHeight * devicePixelRatioOr1 win) ∧
      (∀ b ∈ (updateCanvasSize M win canvas ctx s0).beams,
        ∃ g : Rng K, b = (createBeam M cv.width cv.height g).1) ∧
      setup M intensity (some canvas) (some ctx) win tok s0 =
        animate M intensity tok
          { updateCanvasSize M win canvas ctx s0 with listening := true } ∧
      (setup M intensity (some canvas) (some ctx) win tok s0).canvas = some cv) ∧
    (∃ cv : Canvas K, (step M intensity (Event.resize win) s).canvas = some cv ∧
      cv.width = M.unsignedLong (win.innerWidth * devicePixelRatioOr1 win) ∧
      cv.height = M.unsignedLong (win.innerHeight * devicePixelRatioOr1 win) ∧
      (∀ b ∈ (step M intensity (Event.resize win) s).beams,
        ∃ g : Rng K, b = (createBeam M cv.width cv.height g).1)) := by
  have hmem : ∀ (cv0 : Canvas K) (cx0 : Ctx K) (s1 : State K),
      ∀ b ∈ (updateCanvasSize M win cv0 cx0 s1).beams,
        ∃ g : Rng K, b = (createBeam M
          (M.unsignedLong (win.innerWidth * devicePixelRatioOr1 win))
          (M.unsignedLong (win.innerHeight * devicePixelRatioOr1 win)) g).1 := by
    intro cv0 cx0 s1 b hb
    rw [updateCanvasSize_beams] at hb
    obtain ⟨g, _, hg⟩ := arrayFromCreateBeam_mem M _ _ _ _ b hb
    exact ⟨g, hg⟩
  refine ⟨?_, ?_, ?_, ?_, ?_⟩
  · intro d hd hne
    simp [devicePixelRatioOr1, hd, hne]
  · intro hd
    simp [devicePixelRatioOr1, hd]
  · intro hd
    simp [devicePixelRatioOr1, hd]
  · refine ⟨_, rfl, rfl, rfl, hmem canvas ctx s0, rfl, ?_⟩
    simp only [setup]
    rw [animate_canvas]
    rfl
  · obtain ⟨cv, cx, hcv, hcx, hl, _⟩ := reachable_inv M intensity s h
    rw [step_resize M intensity win s cv cx hcv hcx hl]
    exact ⟨_, rfl, rfl, rfl, hmem cv cx s⟩

/-- Witness of C14 (amended): the sample component after mount, resized to the
window of 1001 x 801 with device pixel ratio 1.5. -/
theorem updateCanvasSize_surface_witness :
    ∃ cv : Canvas ℚ,
      (step sampleMath Intensity.medium (Event.resize sampleWindowFrac) sampleMounted).canvas =
        some cv ∧
      cv.width = sampleMath.unsignedLong
        (sampleWindowFrac.innerWidth * devicePixelRatioOr1 sampleWindowFrac) ∧
      cv.height = sampleMath.unsignedLong
        (sampleWindowFrac.innerHeight * devicePixelRatioOr1 sampleWindowFrac) :=
  let ⟨cv, h1, h2, h3, _⟩ :=
    (updateCanvasSize_surface sampleMath Intensity.medium sampleWindowFrac sampleCanvas
      sampleCtx (init sampleRng) sampleMounted 1
      (Reachable.mount sampleRng sampleCanvas sampleCtx sampleWindow 1)).2.2.2.2
  ⟨cv, h1, h2, h3⟩

/-- C15: in a frame the drawings made are, in order, the drawings of the beams
of the pool as the frame leaves them (after ascent, pulse advance and, when
triggered, `resetBeam`): one drawing per beam, the drawing at position `i` is
that of the beam at index `i`, translated to its position, and a beam for
which `resetBeam` was called in the frame is drawn at `y = H + 100`. -/
theorem draw_order (M : JsMath K) (intensity : Intensity) (tok : Nat) (s : State K)
    (cv : Canvas K) (cx : Ctx K) (hcv : s.canvas = some cv) (hcx : s.ctx = some cx) :
    ∃ cx1 : Ctx K, (animate M intensity tok s).ctx = some cx1 ∧
      cx1.ops = (animate M intensity tok s).beams.map (drawBeam M intensity) ∧
      cx1.ops.length = s.beams.length ∧
      (∀ i : Nat, i < s.beams.length →
        ∃ (b : Beam K) (d : Draw K), (animate M intensity tok s).beams[i]? = some b ∧
          cx1.ops[i]? = some d ∧ d = drawBeam M intensity b ∧
          d.translateX = b.x ∧ d.translateY = b.y) ∧
      (∀ i n : Nat, (i, n) ∈ (animateLoop M intensity s).resets →
        ∃ d : Draw K, cx1.ops[i]? = some d ∧ d.translateY = cv.height + 100) := by
  have hops : (animateLoop M intensity s).draws =
      (animate M intensity tok s).beams.map (drawBeam M intensity) := by
    rw [animate_beams M intensity tok s cv cx hcv hcx]
    exact forEachBeam_draws M intensity s.canvas s.beams.length s.beams 0 s.rng
  refine ⟨_, animate_ops M intensity tok s cv cx hcv hcx, hops, ?_, ?_, ?_⟩
  · show (animateLoop M intensity s).draws.length = s.beams.length
    rw [hops, List.length_map, animate_length]
  · intro i hi
    have hi1 : i < (animate M intensity tok s).beams.length := by
      rw [animate_length]; exact hi
    refine ⟨(animate M intensity tok s).beams[i], drawBeam M intensity
      (animate M intensity tok s).beams[i], List.getElem?_eq_getElem hi1, ?_, rfl, rfl, rfl⟩
    show (animateLoop M intensity s).draws[i]? = _
    rw [hops, List.getElem?_map, List.getElem?_eq_getElem hi1]
    rfl
  · intro i n hmem
    unfold animateLoop at hmem
    rw [forEachBeam_resets_mem] at hmem
    obtain ⟨_, j, b, hb, hij, ho⟩ := hmem
    have hj : j = i := by omega
    subst hj
    obtain ⟨g, _, hget⟩ := animate_get M intensity tok s cv cx hcv hcx j b hb
    refine ⟨drawBeam M intensity (frameBeam M intensity (some cv) s.beams.length b j g).beam,
      ?_, ?_⟩
    · show (animateLoop M intensity s).draws[j]? = _
      rw [hops, List.getElem?_map, hget]
      rfl
    · rw [frameBeam_beam, if_pos ho]
      rfl

/-- Witness of C15: one frame of the sample pool of two beams. -/
theorem draw_order_witness :
    ∃ cx1 : Ctx ℚ, (animate sampleMath Intensity.medium 2 sampleRunning).ctx = some cx1 ∧
      cx1.ops = (animate sampleMath Intensity.medium 2 sampleRunning).beams.map
        (drawBeam sampleMath Intensity.medium) ∧
      cx1.ops.length = sampleRunning.beams.length :=
  let ⟨cx1, h1, h2, h3, _⟩ :=
    draw_order sampleMath Intensity.medium 2 sampleRunning _ _ rfl rfl
  ⟨cx1, h1, h2, h3⟩

/-- C16: with `a` the pulsing alpha of the beam, `drawBeam` translates to the
position of the beam, rotates by `angle * PI / 180` and fills the rectangle
with corner `(-width/2, 0)` and size `width x length` (centred horizontally on
the origin of the beam) with the linear gradient from `(0, 0)` to
`(0, length)` whose stops are 0 at 0, `0.5*a` at 0.1, `a` at 0.4, `a` at 0.6,
`0.5*a` at 0.9 and 0 at 1; the list of stops read backwards with offsets
`1 - offset` is the same list, and every stop has the hue of the beam. -/
theorem drawBeam_spec (M : JsMath K) (intensity : Intensity) (beam : Beam K) :
    (drawBeam M intensity beam).translateX = beam.x ∧
    (drawBeam M intensity beam).translateY = beam.y ∧
    (drawBeam M intensity beam).rotate = beam.angle * M.PI / 180 ∧
    (drawBeam M intensity beam).rectX = -(beam.width / 2) ∧
    (drawBeam M intensity beam).rectY = 0 ∧
    (drawBeam M intensity beam).rectW = beam.width ∧
    (drawBeam M intensity beam).rectH = beam.length ∧
    (drawBeam M intensity beam).rectX + (drawBeam M intensity beam).rectW / 2 = 0 ∧
    (drawBeam M intensity beam).gradX0 = 0 ∧ (drawBeam M intensity beam).gradY0 = 0 ∧
    (drawBeam M intensity beam).gradX1 = 0 ∧
    (drawBeam M intensity beam).gradY1 = beam.length ∧
    (drawBeam M intensity beam).stops.map (fun c => (c.offset, c.alpha)) =
      [(0, 0), (0.1, 0.5 * pulsingOpacity M intensity beam),
       (0.4, pulsingOpacity M intensity beam), (0.6, pulsingOpacity M intensity beam),
       (0.9, 0.5 * pulsingOpacity M intensity beam), (1, 0)] ∧
    (drawBeam M intensity beam).stops.reverse.map (fun c => (1 - c.offset, c.alpha)) =
      (drawBeam M intensity beam).stops.map (fun c => (c.offset, c.alpha)) ∧
    (∀ c ∈ (drawBeam M intensity beam).stops, c.hue = beam.hue) := by
  refine ⟨rfl, rfl, rfl, ?_, rfl, rfl, rfl, ?_, rfl, rfl, rfl, rfl, ?_, ?_, ?_⟩
  · simp only [drawBeam]
    ring
  · simp only [drawBeam]
    ring
  · simp [drawBeam, mul_comm]
  · simp only [drawBeam, List.reverse_cons, List.reverse_nil, List.nil_append,
      List.cons_append, List.map_cons, List.map_nil]
    norm_num
  · intro c hc
    simp only [drawBeam, List.mem_cons, List.mem_singleton, List.not_mem_nil, or_false] at hc
    rcases hc with hc | hc | hc | hc | hc | hc <;> rw [hc]

/-- C17 (counterexample): the sample beam has `y + length = -100` exactly after
the ascent of the frame, and the frame makes no call of `resetBeam`: the pool
it leaves is the ascended beam. -/
theorem boundary_not_recycled :
    (ascend sampleBeamEdge).y + (ascend sampleBeamEdge).length = -100 ∧
    sampleEdge.beams = [sampleBeamEdge] ∧
    (animateLoop sampleMath Intensity.medium sampleEdge).resets = [] ∧
    (animate sampleMath Intensity.medium 2 sampleEdge).beams = [ascend sampleBeamEdge] := by
  refine ⟨?_, rfl, ?_, ?_⟩
  · norm_num [ascend, sampleBeamEdge]
  · norm_num [animateLoop, forEachBeam, frameBeam, offTop, ascend, sampleEdge, sampleRunning,
      sampleBeamEdge]
  · norm_num [animate, animateLoop, forEachBeam, frameBeam, offTop, ascend, sampleEdge,
      sampleRunning, sampleBeamEdge]

/-- C17 (amended): a beam whose `y + length` is exactly `-100` after the ascent
of the frame is not recycled in that frame (the test of line 193 is strict, the
boundary is exclusive): no call of `resetBeam` is made for it and the frame
leaves it as the ascent made it; when its speed is positive it passes the test
after the ascent of the next frame. -/
theorem boundary_exclusive (M : JsMath K) (intensity : Intensity) (s : State K) (i : Nat)
    (b : Beam K) (hb : s.beams[i]? = some b)
    (hedge : (ascend b).y + (ascend b).length = -100) :
    (∀ n, (i, n) ∉ (animateLoop M intensity s).resets) ∧
    (animateLoop M intensity s).beams[i]? = some (ascend b) ∧
    (0 < b.speed → (ascend (ascend b)).y + (ascend (ascend b)).length < -100) := by
  have ho : ¬ offTop (ascend b) = true := by
    simp only [offTop, decide_eq_true_eq, hedge]
    exact lt_irrefl _
  refine ⟨?_, ?_, ?_⟩
  · intro n hmem
    unfold animateLoop at hmem
    rw [forEachBeam_resets_mem] at hmem
    obtain ⟨_, j, b1, hb1, hij, ho1⟩ := hmem
    have hj : j = i := by omega
    subst hj
    rw [hb] at hb1
    cases hb1
    exact ho ho1
  · obtain ⟨g, _, hget⟩ :=
      forEachBeam_get M intensity s.canvas s.beams.length s.beams 0 s.rng i b hb
    unfold animateLoop
    rw [hget, frameBeam_beam, if_neg ho]
  · intro hspeed
    have h1 : (ascend (ascend b)).y + (ascend (ascend b)).length =
        (ascend b).y + (ascend b).length - b.speed := by
      simp only [ascend]
      ring
    rw [h1, hedge]
    linarith

/-- Witness of C17 (amended): the sample beam on the threshold. -/
theorem boundary_exclusive_witness :
    (animateLoop sampleMath Intensity.medium sampleEdge).beams[0]? =
      some (ascend sampleBeamEdge) :=
  (boundary_exclusive sampleMath Intensity.medium sampleEdge 0 sampleBeamEdge rfl
    (by norm_num [ascend, sampleBeamEdge])).2.1

/-- C18 (counterexample): with a viewport height of 800 and a device pixel
ratio of 2, the thirty beams that a resize creates have length 4000, not
`800 * 2.5 = 2000`. -/
theorem created_length_dpr_two :
    sampleWindow.innerHeight = 800 ∧ sampleWindow.devicePixelRatio = some 2 ∧
    (step sampleMath Intensity.medium (Event.resize sampleWindow) sampleMounted).beams.length
      = 30 ∧
    (∀ b ∈ (step sampleMath Intensity.medium (Event.resize sampleWindow) sampleMounted).beams,
      b.length = 4000 ∧ b.length ≠ sampleWindow.innerHeight * 2.5) := by
  have hreach : Reachable sampleMath Intensity.medium sampleMounted :=
    Reachable.mount sampleRng sampleCanvas sampleCtx sampleWindow 1
  obtain ⟨cv, cx, hcv, hcx, hl, _⟩ := reachable_inv _ _ _ hreach
  have hh : sampleMath.unsignedLong
      (sampleWindow.innerHeight * devicePixelRatioOr1 sampleWindow) = 1600 := by
    decide!
  refine ⟨rfl, rfl, ?_, ?_⟩
  · exact step_length _ _ _ _ (reachable_length _ _ _ hreach)
  · intro b hb
    rw [step_resize _ _ sampleWindow sampleMounted cv cx hcv hcx hl] at hb
    have hlen := updateCanvasSize_lengths sampleMath sampleWindow cv cx sampleMounted b hb
    rw [hlen, hh]
    norm_num [sampleWindow]

/-- C18 (amended): each beam created at a sizing event (the mount or a resize)
has the length `canvas.height * 2.5`, where `canvas.height` is the height that
the surface stores for the assigned `innerHeight * dpr` (`dpr` the device pixel
ratio, or 1 when that is zero or not defined), not the viewport height times
2.5; a frame and `resetBeam` leave the length as it is. -/
theorem created_length (M : JsMath K) (intensity : Intensity) (win : Window K) (s : State K)
    (h : Reachable M intensity s) :
    (∃ cv1 : Canvas K, (step M intensity (Event.resize win) s).canvas = some cv1 ∧
      cv1.height = M.unsignedLong (win.innerHeight * devicePixelRatioOr1 win) ∧
      ∀ b ∈ (step M intensity (Event.resize win) s).beams, b.length = cv1.height * 2.5) ∧
    (∀ (canvas : Canvas K) (ctx : Ctx K) (s0 : State K),
      ∃ cv1 : Canvas K, (updateCanvasSize M win canvas ctx s0).canvas = some cv1 ∧
        cv1.height = M.unsignedLong (win.innerHeight * devicePixelRatioOr1 win) ∧
        ∀ b ∈ (updateCanvasSize M win canvas ctx s0).beams, b.length = cv1.height * 2.5) ∧
    (∀ tok : Nat, (animate M intensity tok s).beams.map (fun b => b.length) =
      s.beams.map (fun b => b.length)) ∧
    (∀ (canvas : Option (Canvas K)) (beam : Beam K) (i N : Nat) (g : Rng K),
      (resetBeam canvas beam i N g).1.length = beam.length) := by
  obtain ⟨cv, cx, hcv, hcx, hl, _⟩ := reachable_inv M intensity s h
  have hupd : ∀ (canvas : Canvas K) (ctx : Ctx K) (s0 : State K),
      ∃ cv1 : Canvas K, (updateCanvasSize M win canvas ctx s0).canvas = some cv1 ∧
        cv1.height = M.unsignedLong (win.innerHeight * devicePixelRatioOr1 win) ∧
        ∀ b ∈ (updateCanvasSize M win canvas ctx s0).beams, b.length = cv1.height * 2.5 := by
    intro canvas ctx s0
    obtain ⟨cv1, hcv1, _, hh⟩ := updateCanvasSize_canvas M win canvas ctx s0
    refine ⟨cv1, hcv1, hh, ?_⟩
    intro b hb
    rw [hh]
    exact updateCanvasSize_lengths M win canvas ctx s0 b hb
  refine ⟨?_, hupd, ?_, ?_⟩
  · rw [step_resize M intensity win s cv cx hcv hcx hl]
    exact hupd cv cx s
  · intro tok
    exact animate_map_length M intensity tok s
  · intro canvas beam i N g
    cases canvas <;> rfl

/-- Witness of C18 (amended): the sample component resized to the sample
window. -/
theorem created_length_witness :
    ∃ cv1 : Canvas ℚ,
      (step sampleMath Intensity.medium (Event.resize sampleWindow) sampleMounted).canvas =
        some cv1 ∧
      cv1.height = sampleMath.unsignedLong
        (sampleWindow.innerHeight * devicePixelRatioOr1 sampleWindow) ∧
      ∀ b ∈ (step sampleMath Intensity.medium (Event.resize sampleWindow) sampleMounted).beams,
        b.length = cv1.height * 2.5 :=
  (created_length sampleMath Intensity.medium sampleWindow sampleMounted
    (Reachable.mount sampleRng sampleCanvas sampleCtx sampleWindow 1)).1

/-- C19 (counterexample): the beam created at pool index 0 by the sample
sizing has hue 235 (the draw 1/2), and recycling it at index 0 of the pool of
30 gives hue 210. -/
theorem hue_changes_on_recycle :
    ∃ b : Beam ℚ,
      (updateCanvasSize sampleMath sampleWindow sampleCanvas sampleCtx
        (init sampleRng)).beams[0]? = some b ∧
      b.hue = 235 ∧ (resetBeam (some sampleCanvas) b 0 30 sampleRng).1.hue = 210 ∧
      (resetBeam (some sampleCanvas) b 0 30 sampleRng).1.hue ≠ b.hue := by
  refine ⟨_, updateCanvasSize_head sampleMath sampleWindow sampleCanvas sampleCtx
    (init sampleRng), ?_, ?_, ?_⟩
  · rw [createBeam_hue]
    norm_num [init, sampleRng]
  · rw [resetBeam_hue]
    norm_num
  · rw [resetBeam_hue, createBeam_hue]
    norm_num [init, sampleRng]

/-- C19 (amended): at creation the hue is `210 + r*50` for the seventh draw `r`
of `createBeam`, whatever the pool index; `resetBeam(beam, i, N)` replaces it
by `210 + i*50/N`, and every later recycle at that index writes that same
value. -/
theorem hue_creation_and_recycle (M : JsMath K) (W H : K) (g g1 g2 : Rng K) (cv : Canvas K)
    (beam : Beam K) (i N : Nat) (hN : 0 < N) :
    (createBeam M W H g).1.hue = 210 + g.draws (g.pos + 6) * 50 ∧
    (resetBeam (some cv) beam i N g1).1.hue = 210 + (i : K) * 50 / (N : K) ∧
    (resetBeam (some cv) (createBeam M W H g).1 i N g1).1.hue =
      210 + (i : K) * 50 / (N : K) ∧
    (resetBeam (some cv) (resetBeam (some cv) beam i N g1).1 i N g2).1.hue =
      (resetBeam (some cv) beam i N g1).1.hue := by
  have _ := hN
  refine ⟨createBeam_hue M W H g, resetBeam_hue cv beam i N g1, resetBeam_hue cv _ i N g1, ?_⟩
  rw [resetBeam_hue, resetBeam_hue]

/-- Witness of C19 (amended): index 15 of a pool of 30. -/
theorem hue_creation_and_recycle_witness :
    (resetBeam (some sampleCanvas) (createBeam sampleMath 2400 1600 sampleRng).1 15 30
        sampleRng).1.hue = 210 + ((15 : Nat) : ℚ) * 50 / ((30 : Nat) : ℚ) :=
  (hue_creation_and_recycle sampleMath 2400 1600 sampleRng sampleRng sampleRng sampleCanvas
    sampleBeamMid 15 30 (by decide)).2.2.1

/-- C20 (amended): for a surface with `W > 0` and `H > 0`, draws in `[0, 1)`
and a positive `Math.PI`, the beam that `createBeam(W, H)` returns has angle in
`[-35, -25]`, x in `[-0.25*W, 1.25*W)`, y in `[-0.25*H, 1.25*H)`, width in
`[30, 90]`, speed in `[0.6, 1.8)`, opacity in `[0.12, 0.28)`, hue in
`[210, 260]`, pulse in `[0, 2*PI)` and pulseSpeed in `[0.02, 0.05)`; its speed
and pulseSpeed are positive. -/
theorem createBeam_bounds (M : JsMath K) (W H : K) (g : Rng K) (hW : 0 < W) (hH : 0 < H)
    (hr : UnitDraws g) (hpi : 0 < M.PI) :
    (-35 ≤ (createBeam M W H g).1.angle ∧ (createBeam M W H g).1.angle ≤ -25) ∧
    (-0.25 * W ≤ (createBeam M W H g).1.x ∧ (createBeam M W H g).1.x < 1.25 * W) ∧
    (-0.25 * H ≤ (createBeam M W H g).1.y ∧ (createBeam M W H g).1.y < 1.25 * H) ∧
    (30 ≤ (createBeam M W H g).1.width ∧ (createBeam M W H g).1.width ≤ 90) ∧
    (0.6 ≤ (createBeam M W H g).1.speed ∧ (createBeam M W H g).1.speed < 1.8) ∧
    (0.12 ≤ (createBeam M W H g).1.opacity ∧ (createBeam M W H g).1.opacity < 0.28) ∧
    (210 ≤ (createBeam M W H g).1.hue ∧ (createBeam M W H g).1.hue ≤ 260) ∧
    (0 ≤ (createBeam M W H g).1.pulse ∧ (createBeam M W H g).1.pulse < 2 * M.PI) ∧
    (0.02 ≤ (createBeam M W H g).1.pulseSpeed ∧ (createBeam M W H g).1.pulseSpeed < 0.05) ∧
    0 < (createBeam M W H g).1.speed ∧ 0 < (createBeam M W H g).1.pulseSpeed := by
  obtain ⟨h0a, h0b⟩ := hr g.pos
  obtain ⟨h1a, h1b⟩ := hr (g.pos + 1)
  obtain ⟨h2a, h2b⟩ := hr (g.pos + 2)
  obtain ⟨h3a, h3b⟩ := hr (g.pos + 3)
  obtain ⟨h4a, h4b⟩ := hr (g.pos + 4)
  obtain ⟨h5a, h5b⟩ := hr (g.pos + 5)
  obtain ⟨h6a, h6b⟩ := hr (g.pos + 6)
  obtain ⟨h7a, h7b⟩ := hr (g.pos + 7)
  obtain ⟨h8a, h8b⟩ := hr (g.pos + 8)
  have hxW0 : 0 ≤ g.draws (g.pos + 1) * W := mul_nonneg h1a (le_of_lt hW)
  have hxW1 : g.draws (g.pos + 1) * W < W := mul_lt_of_lt_one_left hW h1b
  have hyH0 : 0 ≤ g.draws (g.pos + 2) * H := mul_nonneg h2a (le_of_lt hH)
  have hyH1 : g.draws (g.pos + 2) * H < H := mul_lt_of_lt_one_left hH h2b
  have hp0 : 0 ≤ g.draws (g.pos + 7) * M.PI := mul_nonneg h7a (le_of_lt hpi)
  have hp1 : g.draws (g.pos + 7) * M.PI < M.PI := mul_lt_of_lt_one_left hpi h7b
  rw [createBeam_hue]
  simp only [createBeam, Rng.get]
  refine ⟨⟨?_, ?_⟩, ⟨?_, ?_⟩, ⟨?_, ?_⟩, ⟨?_, ?_⟩, ⟨?_, ?_⟩, ⟨?_, ?_⟩, ⟨?_, ?_⟩, ⟨?_, ?_⟩,
    ⟨?_, ?_⟩, ?_, ?_⟩ <;> norm_num <;> linarith

/-- Witness of C20 (amended): the sample surface of 2400 x 1600 pixels. -/
theorem createBeam_bounds_witness :
    30 ≤ (createBeam sampleMath 2400 1600 sampleRng).1.width ∧
      (createBeam sampleMath 2400 1600 sampleRng).1.width ≤ 90 :=
  (createBeam_bounds sampleMath 2400 1600 sampleRng (by norm_num) (by norm_num) sampleRng_unit
    (by norm_num [sampleMath])).2.2.2.1

/-! ## Auxiliary facts on lanes and alpha -/

/-- The x that `resetBeam` writes lies in the middle half of the lane of the
index, for a positive surface width and a first draw in `[0, 1)`. -/
theorem resetBeam_x_lane (cv : Canvas K) (beam : Beam K) (i N : Nat) (g : Rng K)
    (hW : 0 < cv.width) (h0 : 0 ≤ g.draws g.pos) (h1 : g.draws g.pos < 1) :
    ((i % 3 : Nat) : K) * (cv.width / 3) + cv.width / 3 / 4 ≤
        (resetBeam (some cv) beam i N g).1.x ∧
      (resetBeam (some cv) beam i N g).1.x <
        ((i % 3 : Nat) : K) * (cv.width / 3) + 3 * (cv.width / 3) / 4 := by
  have hsp : 0 < cv.width / 3 := by positivity
  have hr0 : 0 ≤ g.draws g.pos * (cv.width / 3) := mul_nonneg h0 (le_of_lt hsp)
  have hr1 : g.draws g.pos * (cv.width / 3) < cv.width / 3 := mul_lt_of_lt_one_left hsp h1
  simp only [resetBeam, Rng.get, Nat.add_zero]
  constructor <;> norm_num <;> linarith

theorem column_bounds (cv : Canvas K) (i : Nat) (hW : 0 < cv.width) :
    0 ≤ ((i % 3 : Nat) : K) * (cv.width / 3) ∧
      ((i % 3 : Nat) : K) * (cv.width / 3) ≤ 2 * (cv.width / 3) := by
  have hsp : 0 < cv.width / 3 := by positivity
  have hc : i % 3 ≤ 2 := Nat.le_of_lt_succ (Nat.mod_lt i (by decide))
  have hcK : ((i % 3 : Nat) : K) ≤ 2 := by exact_mod_cast hc
  have hc0 : (0 : K) ≤ ((i % 3 : Nat) : K) := Nat.cast_nonneg _
  exact ⟨mul_nonneg hc0 (le_of_lt hsp), mul_le_mul_of_nonneg_right hcK (le_of_lt hsp)⟩

theorem opacityMap_bounds (intensity : Intensity) :
    (0.7 : K) ≤ opacityMap intensity ∧ (opacityMap intensity : K) ≤ 1 := by
  cases intensity <;> simp only [opacityMap] <;> constructor <;> norm_num

/-! ## Auxiliary facts on the frames between two recycles -/

theorem frame_keeps (M : JsMath K) (intensity : Intensity) (tok : Nat) (s : State K)
    (cv : Canvas K) (cx : Ctx K) (hcv : s.canvas = some cv) (hcx : s.ctx = some cx)
    (i : Nat) (b : Beam K) (hb : s.beams[i]? = some b)
    (ho : ¬ b.y - b.speed + b.length < -100) :
    (∀ m, (i, m) ∉ (animateLoop M intensity s).resets) ∧
      (animate M intensity tok s).beams[i]? = some (ascend b) := by
  have hoff : ¬ offTop (ascend b) = true := by
    rw [offTop_ascend]
    exact ho
  constructor
  · intro m hmem
    unfold animateLoop at hmem
    rw [forEachBeam_resets_mem] at hmem
    obtain ⟨_, j, b1, hb1, hij, ho1⟩ := hmem
    have hj : j = i := by omega
    subst hj
    rw [hb] at hb1
    cases hb1
    exact hoff ho1
  · obtain ⟨g, _, hget⟩ := animate_get M intensity tok s cv cx hcv hcx i b hb
    rw [hget, frameBeam_beam, if_neg hoff]

theorem frame_recycles (M : JsMath K) (intensity : Intensity) (tok : Nat) (s : State K)
    (cv : Canvas K) (cx : Ctx K) (hcv : s.canvas = some cv) (hcx : s.ctx = some cx)
    (i : Nat) (b : Beam K) (hb : s.beams[i]? = some b)
    (ho : b.y - b.speed + b.length < -100) :
    (i, s.beams.length) ∈ (animateLoop M intensity s).resets ∧
      ∃ b2 : Beam K, (animate M intensity tok s).beams[i]? = some b2 ∧
        b2.y = cv.height + 100 := by
  have hoff : offTop (ascend b) = true := (offTop_ascend b).2 ho
  constructor
  · unfold animateLoop
    rw [forEachBeam_resets_mem]
    exact ⟨rfl, i, b, hb, by omega, hoff⟩
  · obtain ⟨g, _, hget⟩ := animate_get M intensity tok s cv cx hcv hcx i b hb
    refine ⟨_, hget, ?_⟩
    rw [frameBeam_beam, if_pos hoff]
    rfl

/-- As long as the beam at index `i` stays on or below the threshold, the
frames only move it up by its speed. -/
theorem runFrames_ascend (M : JsMath K) (intensity : Intensity) (i : Nat) (cv : Canvas K)
    (toks : List Nat) (s : State K) (cx : Ctx K) (b : Beam K)
    (hcv : s.canvas = some cv) (hcx : s.ctx = some cx) (hb : s.beams[i]? = some b)
    (hs : 0 ≤ b.speed) (hno : -100 ≤ b.y - (toks.length : K) * b.speed + b.length) :
    ∃ (cx1 : Ctx K) (b1 : Beam K), (runFrames M intensity toks s).canvas = some cv ∧
      (runFrames M intensity toks s).ctx = some cx1 ∧
      (runFrames M intensity toks s).beams[i]? = some b1 ∧
      b1.y = b.y - (toks.length : K) * b.speed ∧ b1.speed = b.speed ∧
      b1.length = b.length := by
  induction toks generalizing s cx b with
  | nil =>
    refine ⟨cx, b, hcv, hcx, hb, ?_, rfl, rfl⟩
    simp
  | cons tok toks ih =>
    have hlen : (((tok :: toks).length : Nat) : K) = (toks.length : K) + 1 := by
      simp
    rw [hlen] at hno
    have hprod : 0 ≤ (toks.length : K) * b.speed := mul_nonneg (Nat.cast_nonneg _) hs
    have ho : ¬ b.y - b.speed + b.length < -100 := by
      intro h
      nlinarith
    obtain ⟨_, hget⟩ := frame_keeps M intensity tok s cv cx hcv hcx i b hb ho
    obtain ⟨cx0, hcx0⟩ := animate_ctx_some M intensity tok s cx hcx
    have hcv0 : (animate M intensity tok s).canvas = some cv := by
      rw [animate_canvas]
      exact hcv
    have hno1 : -100 ≤ (ascend b).y - (toks.length : K) * (ascend b).speed +
        (ascend b).length := by
      show -100 ≤ b.y - b.speed - (toks.length : K) * b.speed + b.length
      linarith
    obtain ⟨cx1, b1, h1, h2, h3, h4, h5, h6⟩ :=
      ih (animate M intensity tok s) cx0 (ascend b) hcv0 hcx0 hget hs hno1
    refine ⟨cx1, b1, h1, h2, h3, ?_, h5, h6⟩
    rw [h4, hlen]
    show b.y - b.speed - (toks.length : K) * b.speed = b.y - ((toks.length : K) + 1) * b.speed
    ring

/-- A beam for which `n * speed <= y + length + 100 < (n + 1) * speed` is left
alone by the first `n` frames and recycled by the next one. -/
theorem recycle_at (M : JsMath K) (intensity : Intensity) (s : State K)
    (cv : Canvas K) (cx : Ctx K) (hcv : s.canvas = some cv) (hcx : s.ctx = some cx)
    (i : Nat) (b : Beam K) (hb : s.beams[i]? = some b) (hspos : 0 < b.speed) (n : Nat)
    (hle : (n : K) * b.speed ≤ b.y + b.length + 100)
    (hlt : b.y + b.length + 100 < ((n : K) + 1) * b.speed) (toks : List Nat) (tok : Nat) :
    (toks.length < n →
      (∀ m, (i, m) ∉ (animateLoop M intensity (runFrames M intensity toks s)).resets) ∧
      ∃ b1 b2 : Beam K, (runFrames M intensity toks s).beams[i]? = some b1 ∧
        (animate M intensity tok (runFrames M intensity toks s)).beams[i]? = some b2 ∧
        b1.y = b.y - (toks.length : K) * b.speed ∧
        b2.y = b1.y - b.speed ∧ b2.y < b1.y) ∧
    (toks.length = n →
      (∃ m, (i, m) ∈ (animateLoop M intensity (runFrames M intensity toks s)).resets) ∧
      ∃ b2 : Beam K,
        (animate M intensity tok (runFrames M intensity toks s)).beams[i]? = some b2 ∧
        b2.y = cv.height + 100) := by
  have hbefore : toks.length ≤ n →
      ∃ (cx1 : Ctx K) (b1 : Beam K), (runFrames M intensity toks s).canvas = some cv ∧
        (runFrames M intensity toks s).ctx = some cx1 ∧
        (runFrames M intensity toks s).beams[i]? = some b1 ∧
        b1.y = b.y - (toks.length : K) * b.speed ∧ b1.speed = b.speed ∧
        b1.length = b.length := by
    intro hl
    apply runFrames_ascend M intensity i cv toks s cx b hcv hcx hb (le_of_lt hspos)
    have hlK : (toks.length : K) ≤ (n : K) := by exact_mod_cast hl
    have hm : (toks.length : K) * b.speed ≤ (n : K) * b.speed :=
      mul_le_mul_of_nonneg_right hlK (le_of_lt hspos)
    linarith
  constructor
  · intro hk
    obtain ⟨cx1, b1, h1, h2, h3, h4, h5, h6⟩ := hbefore (le_of_lt hk)
    have hlK : (toks.length : K) + 1 ≤ (n : K) := by exact_mod_cast hk
    have hm : ((toks.length : K) + 1) * b.speed ≤ (n : K) * b.speed :=
      mul_le_mul_of_nonneg_right hlK (le_of_lt hspos)
    have ho : ¬ b1.y - b1.speed + b1.length < -100 := by
      rw [h4, h5, h6]
      intro hcon
      linarith
    obtain ⟨hno, hget⟩ :=
      frame_keeps M intensity tok (runFrames M intensity toks s) cv cx1 h1 h2 i b1 h3 ho
    refine ⟨hno, b1, ascend b1, h3, hget, h4, ?_, ?_⟩
    · show b1.y - b1.speed = b1.y - b.speed
      rw [h5]
    · show b1.y - b1.speed < b1.y
      rw [h5]
      linarith
  · intro hk
    obtain ⟨cx1, b1, h1, h2, h3, h4, h5, h6⟩ := hbefore (le_of_eq hk)
    have hlK : (toks.length : K) = (n : K) := by exact_mod_cast hk
    have ho : b1.y - b1.speed + b1.length < -100 := by
      rw [h4, h5, h6, hlK]
      linarith
    obtain ⟨hmem, hb2⟩ :=
      frame_recycles M intensity tok (runFrames M intensity toks s) cv cx1 h1 h2 i b1 h3 ho
    exact ⟨⟨_, hmem⟩, hb2⟩

/-! ## The claims, last part -/

/-- C26: `filteredGallery` is `fullGallery` for the filter 'All'; for every
other filter it is the list of the items of `fullGallery` whose category is the
filter, a sub-list in the original order.  The shipped gallery has 35 items
with the pairwise distinct ids 22..56, all of category 'Weddings': the tab
'Weddings' yields all 35 and the tabs 'Pre-Wedding', 'Events', 'Editorial' and
'Drone' yield the empty list. -/
theorem filteredGallery_spec (galleryFilter : String) :
    filteredGallery "All" = fullGallery ∧
    (galleryFilter ≠ "All" →
      filteredGallery galleryFilter =
        fullGallery.filter (fun img => decide (img.category = galleryFilter)) ∧
      List.Sublist (filteredGallery galleryFilter) fullGallery ∧
      (∀ img, img ∈ filteredGallery galleryFilter ↔
        img ∈ fullGallery ∧ img.category = galleryFilter)) ∧
    fullGallery.length = 35 ∧
    fullGallery.map (fun img => img.id) = List.range' 22 35 ∧
    (fullGallery.map (fun img => img.id)).Nodup ∧
    (∀ img ∈ fullGallery, img.category = "Weddings") ∧
    filteredGallery "Weddings" = fullGallery ∧
    (filteredGallery "Weddings").length = 35 ∧
    filteredGallery "Pre-Wedding" = [] ∧ filteredGallery "Events" = [] ∧
    filteredGallery "Editorial" = [] ∧ filteredGallery "Drone" = [] ∧
    filterTabs = ["All", "Weddings", "Pre-Wedding", "Events", "Editorial", "Drone"] := by
  refine ⟨by decide, ?_, by decide, by decide, by decide, by decide, by decide, by decide,
    by decide, by decide, by decide, by decide, rfl⟩
  intro hne
  have hf : filteredGallery galleryFilter =
      fullGallery.filter (fun img => decide (img.category = galleryFilter)) := by
    simp [filteredGallery, hne]
  refine ⟨hf, ?_, ?_⟩
  · rw [hf]
    exact List.filter_sublist _
  · intro img
    rw [hf, List.mem_filter]
    simp

/-- Witness of C26: the tab 'Events'. -/
theorem filteredGallery_spec_witness :
    filteredGallery "Events" =
      fullGallery.filter (fun img => decide (img.category = "Events")) :=
  ((filteredGallery_spec "Events").2.1 (by decide)).1

/-- C21 (amended): for a surface of width `W > 0`, a pool index `i` and draws
in `[0, 1)`, with `spacing = W/3` and `c = i mod 3`, the x that `resetBeam`
writes lies inside lane `c`, `c*spacing < x < (c+1)*spacing`, and so
`0 < x < W`. -/
theorem resetBeam_lane (cv : Canvas K) (beam : Beam K) (i N : Nat) (g : Rng K)
    (hW : 0 < cv.width) (hr : UnitDraws g) :
    ((i % 3 : Nat) : K) * (cv.width / 3) < (resetBeam (some cv) beam i N g).1.x ∧
    (resetBeam (some cv) beam i N g).1.x < (((i % 3 : Nat) : K) + 1) * (cv.width / 3) ∧
    0 < (resetBeam (some cv) beam i N g).1.x ∧
    (resetBeam (some cv) beam i N g).1.x < cv.width := by
  obtain ⟨h0, h1⟩ := hr g.pos
  obtain ⟨hlo, hhi⟩ := resetBeam_x_lane cv beam i N g hW h0 h1
  obtain ⟨hc0, hc2⟩ := column_bounds cv i hW
  have hsp : 0 < cv.width / 3 := by positivity
  refine ⟨?_, ?_, ?_, ?_⟩
  · linarith
  · rw [add_mul, one_mul]
    linarith
  · linarith
  · linarith

/-- Witness of C21 (amended): index 5 on the sample surface. -/
theorem resetBeam_lane_witness :
    0 < (resetBeam (some sampleSurface) sampleBeamHigh 5 30 sampleRng).1.x ∧
      (resetBeam (some sampleSurface) sampleBeamHigh 5 30 sampleRng).1.x < sampleSurface.width :=
  (resetBeam_lane sampleSurface sampleBeamHigh 5 30 sampleRng (by norm_num [sampleSurface])
    sampleRng_unit).2.2

/-- C23: for a beam with `0.12 <= opacity < 0.3`, any pulse, a `Math.sin` with
values in `[-1, 1]` and any intensity with factor `f`, the pulsing alpha `a`
satisfies `0.6*opacity*f <= a <= opacity*f`, hence `0.0504 <= a < 0.3`, and
every stop of the gradient of `drawBeam` has an alpha in `[0, 1)`. -/
theorem pulsing_alpha_bounds (M : JsMath K) (intensity : Intensity) (beam : Beam K)
    (hsin : ∀ x : K, -1 ≤ M.sin x ∧ M.sin x ≤ 1)
    (hlo : 0.12 ≤ beam.opacity) (hhi : beam.opacity < 0.3) :
    0.6 * beam.opacity * opacityMap intensity ≤ pulsingOpacity M intensity beam ∧
    pulsingOpacity M intensity beam ≤ beam.opacity * opacityMap intensity ∧
    0.0504 ≤ pulsingOpacity M intensity beam ∧ pulsingOpacity M intensity beam < 0.3 ∧
    (∀ c ∈ (drawBeam M intensity beam).stops, 0 ≤ c.alpha ∧ c.alpha < 1) := by
  obtain ⟨hs0, hs1⟩ := hsin beam.pulse
  obtain ⟨hf0, hf1⟩ := opacityMap_bounds (K := K) intensity
  have hop : (0 : K) ≤ beam.opacity := by
    have : (0 : K) ≤ 0.12 := by norm_num
    linarith
  have hf : (0 : K) ≤ opacityMap intensity := by
    have : (0 : K) ≤ 0.7 := by norm_num
    linarith
  have ht0 : (0.6 : K) ≤ 0.8 + M.sin beam.pulse * 0.2 := by
    have h : (0.6 : K) = 0.8 + (-1) * 0.2 := by norm_num
    rw [h]
    have : (-1 : K) * 0.2 ≤ M.sin beam.pulse * 0.2 :=
      mul_le_mul_of_nonneg_right hs0 (by norm_num)
    linarith
  have ht1 : 0.8 + M.sin beam.pulse * 0.2 ≤ (1 : K) := by
    have h : (1 : K) = 0.8 + 1 * 0.2 := by norm_num
    rw [h]
    have : M.sin beam.pulse * 0.2 ≤ (1 : K) * 0.2 :=
      mul_le_mul_of_nonneg_right hs1 (by norm_num)
    linarith
  have h1 : beam.opacity * 0.6 ≤ beam.opacity * (0.8 + M.sin beam.pulse * 0.2) :=
    mul_le_mul_of_nonneg_left ht0 hop
  have h2 : beam.opacity * (0.8 + M.sin beam.pulse * 0.2) ≤ beam.opacity * 1 :=
    mul_le_mul_of_nonneg_left ht1 hop
  have hA : 0.6 * beam.opacity * opacityMap intensity ≤ pulsingOpacity M intensity beam := by
    have := mul_le_mul_of_nonneg_right h1 hf
    simp only [pulsingOpacity]
    linarith
  have hB : pulsingOpacity M intensity beam ≤ beam.opacity * opacityMap intensity := by
    have := mul_le_mul_of_nonneg_right h2 hf
    simp only [pulsingOpacity]
    linarith
  have hC : (0.0504 : K) ≤ 0.6 * beam.opacity * opacityMap intensity := by
    have h3 : (0.12 : K) * 0.7 ≤ beam.opacity * opacityMap intensity :=
      mul_le_mul hlo hf0 (by norm_num) hop
    have h4 : (0.0504 : K) = 0.6 * (0.12 * 0.7) := by norm_num
    rw [h4, mul_assoc]
    exact mul_le_mul_of_nonneg_left h3 (by norm_num)
  have hD : beam.opacity * opacityMap intensity < 0.3 := by
    have h3 : beam.opacity * opacityMap intensity ≤ beam.opacity * 1 :=
      mul_le_mul_of_nonneg_left hf1 hop
    linarith
  have hlow : (0.0504 : K) ≤ pulsingOpacity M intensity beam := le_trans hC hA
  have hupp : pulsingOpacity M intensity beam < 0.3 := lt_of_le_of_lt hB hD
  have hpos : (0 : K) ≤ pulsingOpacity M intensity beam := by
    have : (0 : K) ≤ 0.0504 := by norm_num
    linarith
  have hzero : (0 : K) ≤ 0 ∧ (0 : K) < 1 := ⟨le_refl 0, zero_lt_one⟩
  have hfull : 0 ≤ pulsingOpacity M intensity beam ∧ pulsingOpacity M intensity beam < 1 := by
    have : (0.3 : K) < 1 := by norm_num
    exact ⟨hpos, lt_trans hupp this⟩
  have hhalf : 0 ≤ pulsingOpacity M intensity beam * 0.5 ∧
      pulsingOpacity M intensity beam * 0.5 < 1 := by
    have h5 : pulsingOpacity M intensity beam * 0.5 ≤ pulsingOpacity M intensity beam := by
      have : pulsingOpacity M intensity beam * 0.5 ≤ pulsingOpacity M intensity beam * 1 :=
        mul_le_mul_of_nonneg_left (by norm_num) hpos
      linarith
    exact ⟨mul_nonneg hpos (by norm_num), lt_of_le_of_lt h5 hfull.2⟩
  refine ⟨hA, hB, hlow, hupp, ?_⟩
  intro c hc
  simp only [drawBeam, List.mem_cons, List.mem_singleton, List.not_mem_nil, or_false] at hc
  rcases hc with hc | hc | hc | hc | hc | hc
  · rw [hc]; exact hzero
  · rw [hc]; exact hhalf
  · rw [hc]; exact hfull
  · rw [hc]; exact hfull
  · rw [hc]; exact hhalf
  · rw [hc]; exact hzero

/-- Witness of C23: the sample beam of opacity 1/5 on the sample host. -/
theorem pulsing_alpha_bounds_witness :
    0.0504 ≤ pulsingOpacity sampleMath Intensity.medium sampleBeamMid ∧
      pulsingOpacity sampleMath Intensity.medium sampleBeamMid < 0.3 :=
  let h := pulsing_alpha_bounds sampleMath Intensity.medium sampleBeamMid
    (fun _ => by norm_num [sampleMath]) (by norm_num [sampleBeamMid])
    (by norm_num [sampleBeamMid])
  ⟨h.2.2.1, h.2.2.2.1⟩

/-- C24: every `animate()` of a mounted component adds exactly one frame
request and stores its token in `animationFrameRef`; in every state reachable
after mount the pending requests are the single one whose token is stored,
also after the host has run it as the next frame. -/
theorem single_pending (M : JsMath K) (intensity : Intensity) (s : State K)
    (h : Reachable M intensity s) :
    s.pending = [s.animationFrameRef] ∧ s.pending.length ≤ 1 ∧
    (∀ tok : Nat, (animate M intensity tok s).pending = s.pending ++ [tok] ∧
      (animate M intensity tok s).animationFrameRef = tok) ∧
    (∀ fired tok : Nat, fired ∈ s.pending →
      (step M intensity (Event.frame fired tok) s).pending = [tok] ∧
      (step M intensity (Event.frame fired tok) s).animationFrameRef = tok) := by
  have hp := reachable_pending M intensity s h
  obtain ⟨cv, cx, hcv, hcx, _, _⟩ := reachable_inv M intensity s h
  refine ⟨hp, by rw [hp]; simp, ?_, ?_⟩
  · intro tok
    exact animate_pending M intensity tok s cv cx hcv hcx
  · intro fired tok hmem
    have hnext := reachable_pending M intensity _ (Reachable.step (Event.frame fired tok) s h)
    have href : (step M intensity (Event.frame fired tok) s).animationFrameRef = tok := by
      simp only [step, hmem, if_true]
      exact (animate_pending M intensity tok { s with pending := s.pending.erase fired }
        cv cx hcv hcx).2
    rw [hnext, href]
    exact ⟨rfl, rfl⟩

/-- Witness of C24: the sample component after mount and one frame. -/
theorem single_pending_witness :
    (step sampleMath Intensity.medium (Event.frame 1 2) sampleMounted).pending =
      [(step sampleMath Intensity.medium (Event.frame 1 2) sampleMounted).animationFrameRef] :=
  (single_pending sampleMath Intensity.medium _
    (Reachable.step (Event.frame 1 2) _
      (Reachable.mount sampleRng sampleCanvas sampleCtx sampleWindow 1))).1

/-- C25 (counterexample): on the sample window (width 1200, device pixel ratio
2) `updateCanvasSize` makes a surface 2400 pixels wide with scale 2; the beam
recycled at index 2 gets `x = 1800`, so its origin is drawn at the device
pixel 3600, right of the surface. -/
theorem recycled_origin_off_surface :
    ∃ (cv : Canvas ℚ) (cx : Ctx ℚ),
      (updateCanvasSize sampleMath sampleWindow sampleCanvas sampleCtx
        (init sampleRng)).canvas = some cv ∧
      (updateCanvasSize sampleMath sampleWindow sampleCanvas sampleCtx
        (init sampleRng)).ctx = some cx ∧
      cx.scaleX = 2 ∧ cv.width = 2400 ∧
      (resetBeam (some cv) sampleBeamHigh 2 30 sampleRng).1.x = 1800 ∧
      deviceX cx (drawBeam sampleMath Intensity.medium
        (resetBeam (some cv) sampleBeamHigh 2 30 sampleRng).1) = 3600 ∧
      ¬ deviceX cx (drawBeam sampleMath Intensity.medium
        (resetBeam (some cv) sampleBeamHigh 2 30 sampleRng).1) < cv.width := by
  have hw : sampleMath.unsignedLong
      (sampleWindow.innerWidth * devicePixelRatioOr1 sampleWindow) = 2400 := by
    decide!
  have hd : devicePixelRatioOr1 sampleWindow = 2 := by
    decide!
  obtain ⟨cv, hcv, h1, _⟩ :=
    updateCanvasSize_canvas sampleMath sampleWindow sampleCanvas sampleCtx (init sampleRng)
  rw [hw] at h1
  have hx : (resetBeam (some cv) sampleBeamHigh 2 30 sampleRng).1.x = 1800 := by
    simp only [resetBeam, Rng.get, h1]
    norm_num [sampleRng]
  refine ⟨cv, _, hcv, rfl, hd, h1, hx, ?_, ?_⟩
  · show devicePixelRatioOr1 sampleWindow *
      (resetBeam (some cv) sampleBeamHigh 2 30 sampleRng).1.x = 3600
    rw [hx, hd]
    norm_num
  · show ¬ devicePixelRatioOr1 sampleWindow *
      (resetBeam (some cv) sampleBeamHigh 2 30 sampleRng).1.x < cv.width
    rw [hx, hd, h1]
    norm_num

/-- C25 (amended): after `updateCanvasSize` the scale of the context is `dpr`;
on a surface of positive width `canvas.width` (the width it stores), for
`dpr >= 1` and draws in `[0, 1)`, the origin of a recycled beam is drawn at the
device pixel `dpr * beam.x`, which lies in `(0, dpr * canvas.width)`; for
`dpr = 1` it lies inside the surface, in `[0, canvas.width)`. -/
theorem recycled_origin_device_x (M : JsMath K) (intensity : Intensity) (win : Window K)
    (cv0 : Canvas K) (cx0 : Ctx K) (s0 : State K) (beam : Beam K) (i N : Nat) (g : Rng K)
    (cv : Canvas K) (hcv : (updateCanvasSize M win cv0 cx0 s0).canvas = some cv)
    (hW : 0 < cv.width) (hdpr : 1 ≤ devicePixelRatioOr1 win) (hr : UnitDraws g) :
    ∃ cx : Ctx K,
      (updateCanvasSize M win cv0 cx0 s0).ctx = some cx ∧
      cx.scaleX = devicePixelRatioOr1 win ∧
      deviceX cx (drawBeam M intensity (resetBeam (some cv) beam i N g).1) =
        devicePixelRatioOr1 win * (resetBeam (some cv) beam i N g).1.x ∧
      0 < deviceX cx (drawBeam M intensity (resetBeam (some cv) beam i N g).1) ∧
      deviceX cx (drawBeam M intensity (resetBeam (some cv) beam i N g).1) <
        devicePixelRatioOr1 win * cv.width ∧
      (devicePixelRatioOr1 win = 1 →
        0 ≤ deviceX cx (drawBeam M intensity (resetBeam (some cv) beam i N g).1) ∧
        deviceX cx (drawBeam M intensity (resetBeam (some cv) beam i N g).1) < cv.width) := by
  have _ := hcv
  have hd0 : 0 < devicePixelRatioOr1 win := lt_of_lt_of_le zero_lt_one hdpr
  obtain ⟨h0, h1⟩ := hr g.pos
  obtain ⟨hlo, hhi⟩ := resetBeam_x_lane cv beam i N g hW h0 h1
  obtain ⟨hc0, hc2⟩ := column_bounds cv i hW
  have hsp : 0 < cv.width / 3 := by positivity
  have hx0 : 0 < (resetBeam (some cv) beam i N g).1.x := by linarith
  have hxW : (resetBeam (some cv) beam i N g).1.x < cv.width := by linarith
  refine ⟨_, rfl, rfl, rfl, ?_, ?_, ?_⟩
  · exact mul_pos hd0 hx0
  · exact mul_lt_mul_of_pos_left hxW hd0
  · intro h1d
    show 0 ≤ devicePixelRatioOr1 win * (resetBeam (some cv) beam i N g).1.x ∧
      devicePixelRatioOr1 win * (resetBeam (some cv) beam i N g).1.x < cv.width
    rw [h1d, one_mul]
    exact ⟨le_of_lt hx0, hxW⟩

/-- Witness of C25 (amended): the sample window (device pixel ratio 2), index
2 of a pool of 30. -/
theorem recycled_origin_device_x_witness :
    ∃ cx : Ctx ℚ,
      (updateCanvasSize sampleMath sampleWindow sampleCanvas sampleCtx
        (init sampleRng)).ctx = some cx ∧
      cx.scaleX = devicePixelRatioOr1 sampleWindow ∧
      0 < deviceX cx (drawBeam sampleMath Intensity.medium
        (resetBeam (some
          { sampleCanvas with
            width := sampleMath.unsignedLong
              (sampleWindow.innerWidth * devicePixelRatioOr1 sampleWindow)
            height := sampleMath.unsignedLong
              (sampleWindow.innerHeight * devicePixelRatioOr1 sampleWindow)
            styleWidth := sampleWindow.innerWidth
            styleHeight := sampleWindow.innerHeight }) sampleBeamHigh 2 30 sampleRng).1) :=
  let ⟨cx, h1, h2, _, h4, _⟩ :=
    recycled_origin_device_x sampleMath Intensity.medium sampleWindow sampleCanvas sampleCtx
      (init sampleRng) sampleBeamHigh 2 30 sampleRng _ rfl
      (by show (0 : ℚ) < sampleMath.unsignedLong
            (sampleWindow.innerWidth * devicePixelRatioOr1 sampleWindow)
          decide!)
      (by decide!) sampleRng_unit
  ⟨cx, h1, h2, h4⟩

/-- C22 (amended): on a surface of height `H >= 0`, with frames only, a beam
that has just been recycled (`y = H + 100`, `length = 2.5*H`, speed in
`[0.5, 0.9)`) is not recycled in the next frame and is recycled next in a
frame number `k` with `2 <= k <= 7*H + 401`: in every earlier frame `resetBeam`
is not called for it and its `y` decreases, and in frame `k` `resetBeam` is
called for it and puts it back at `y = H + 100`. -/
theorem recycle_period [FloorRing K] (M : JsMath K) (intensity : Intensity) (s : State K)
    (cv : Canvas K) (cx : Ctx K) (hcv : s.canvas = some cv) (hcx : s.ctx = some cx)
    (i : Nat) (b : Beam K) (hb : s.beams[i]? = some b) (hH : 0 ≤ cv.height)
    (hy : b.y = cv.height + 100) (hlen : b.length = 2.5 * cv.height)
    (hs1 : 0.5 ≤ b.speed) (hs2 : b.speed < 0.9) :
    ∃ k : Nat, 2 ≤ k ∧ (k : K) ≤ 7 * cv.height + 401 ∧
      (∀ (toks : List Nat) (tok : Nat), toks.length + 1 < k →
        (∀ m, (i, m) ∉ (animateLoop M intensity (runFrames M intensity toks s)).resets) ∧
        ∃ b1 b2 : Beam K, (runFrames M intensity toks s).beams[i]? = some b1 ∧
          (animate M intensity tok (runFrames M intensity toks s)).beams[i]? = some b2 ∧
          b2.y < b1.y) ∧
      (∀ (toks : List Nat) (tok : Nat), toks.length + 1 = k →
        (∃ m, (i, m) ∈ (animateLoop M intensity (runFrames M intensity toks s)).resets) ∧
        ∃ b2 : Beam K,
          (animate M intensity tok (runFrames M intensity toks s)).beams[i]? = some b2 ∧
          b2.y = cv.height + 100) := by
  have hspos : 0 < b.speed := by
    have : (0 : K) < 0.5 := by norm_num
    linarith
  have hnum : 0 ≤ 3.5 * cv.height + 200 := by
    have : 0 ≤ 3.5 * cv.height := mul_nonneg (by norm_num) hH
    linarith
  have hA : b.y + b.length + 100 = 3.5 * cv.height + 200 := by
    rw [hy, hlen]
    ring
  have hq0 : 0 ≤ (3.5 * cv.height + 200) / b.speed := div_nonneg hnum (le_of_lt hspos)
  have hqs : (3.5 * cv.height + 200) / b.speed * b.speed = 3.5 * cv.height + 200 :=
    div_mul_cancel₀ _ (ne_of_gt hspos)
  have h1 : 1 ≤ Nat.floor ((3.5 * cv.height + 200) / b.speed) := by
    apply Nat.le_floor
    rw [Nat.cast_one, le_div_iff₀ hspos]
    linarith
  have hq : (3.5 * cv.height + 200) / b.speed ≤ 7 * cv.height + 400 := by
    rw [div_le_iff₀ hspos]
    have h7 : 0 ≤ 7 * cv.height + 400 := by
      have : 0 ≤ 7 * cv.height := mul_nonneg (by norm_num) hH
      linarith
    have := mul_le_mul_of_nonneg_left hs1 h7
    linarith
  have hfl := Nat.floor_le hq0
  have hlt := Nat.lt_floor_add_one ((3.5 * cv.height + 200) / b.speed)
  generalize Nat.floor ((3.5 * cv.height + 200) / b.speed) = n at h1 hfl hlt
  have hflmul : (n : K) * b.speed ≤ b.y + b.length + 100 := by
    have := mul_le_mul_of_nonneg_right hfl (le_of_lt hspos)
    rw [hqs] at this
    rw [hA]
    exact this
  have hltmul : b.y + b.length + 100 < ((n : K) + 1) * b.speed := by
    have := mul_lt_mul_of_pos_right hlt hspos
    rw [hqs] at this
    rw [hA]
    exact this
  refine ⟨n + 1, by omega, ?_, ?_, ?_⟩
  · push_cast
    linarith
  · intro toks tok hk
    obtain ⟨hearly, _⟩ :=
      recycle_at M intensity s cv cx hcv hcx i b hb hspos n hflmul hltmul toks tok
    obtain ⟨hno, b1, b2, hb1, hb2, _, _, hdec⟩ := hearly (by omega)
    exact ⟨hno, b1, b2, hb1, hb2, hdec⟩
  · intro toks tok hk
    obtain ⟨_, hthen⟩ :=
      recycle_at M intensity s cv cx hcv hcx i b hb hspos n hflmul hltmul toks tok
    exact hthen (by omega)

/-- Witness of C22 (amended): the sample beam of speed 1/2 on the surface of
height 800. -/
theorem recycle_period_witness :
    ∃ k : Nat, 2 ≤ k ∧ (k : ℚ) ≤ 7 * sampleSurface.height + 401 :=
  let ⟨k, h2, h3, _⟩ := recycle_period sampleMath Intensity.medium sampleFresh sampleSurface
    sampleCtx rfl rfl 0 sampleBeamFresh rfl (by norm_num [sampleSurface])
    (by norm_num [sampleBeamFresh, sampleSurface])
    (by norm_num [sampleBeamFresh, sampleSurface]) (by norm_num [sampleBeamFresh])
    (by norm_num [sampleBeamFresh])
  ⟨k, h2, h3⟩

/-! ## Counterexamples in binary64 -/

theorem sampleRngTop_unit : UnitDraws sampleRngTop := by
  intro n
  simp only [sampleRngTop]
  constructor <;> norm_num

/-- C5 (counterexample): with the draw `1 - 2^-53`, which lies in `[0, 1)`,
`resetBeam` as the engine computes it writes the width `100 + r*100 = 200` and
the opacity `0.2 + r*0.1` that is the binary64 value of `0.3`: the upper ends
of the bands are attained. -/
theorem recycle_band_ends_attained :
    UnitDraws sampleRngTop ∧
    (resetBeam64 (some sampleSurface) sampleBeamHigh 0 30 sampleRngTop).1.width = 200 ∧
    ¬ (resetBeam64 (some sampleSurface) sampleBeamHigh 0 30 sampleRngTop).1.width < 200 ∧
    (resetBeam64 (some sampleSurface) sampleBeamHigh 0 30 sampleRngTop).1.opacity =
      round64 0.3 ∧
    ¬ (resetBeam64 (some sampleSurface) sampleBeamHigh 0 30 sampleRngTop).1.opacity <
      round64 0.3 := by
  refine ⟨sampleRngTop_unit, ?_, ?_, ?_, ?_⟩ <;> decide!

/-- C20 (counterexample): with the draw `1 - 2^-53`, which lies in `[0, 1)`,
`createBeam` as the engine computes it returns the angle `-35 + r*10 = -25`,
the width `30 + r*60 = 90` and the hue `210 + r*50 = 260`: the upper ends of
these three ranges are attained. -/
theorem createBeam_ends_attained :
    UnitDraws sampleRngTop ∧
    (createBeam64 sampleMath 2400 1600 sampleRngTop).1.angle = -25 ∧
    (createBeam64 sampleMath 2400 1600 sampleRngTop).1.width = 90 ∧
    (createBeam64 sampleMath 2400 1600 sampleRngTop).1.hue = 260 := by
  refine ⟨sampleRngTop_unit, ?_, ?_, ?_⟩ <;> decide!

/-- C21 (counterexample): as the engine computes it, on a surface 1200 wide
the draw `1 - 2^-53` puts the beam of index 0 at `x = 300`, the excluded upper
end `c*spacing + 3*spacing/4` of lane 0, and on a surface 1000 wide the draw 0
puts the beam of index 2 below 750, the lower end `c*spacing + spacing/4` of
lane 2. -/
theorem lane_interval_ends :
    (resetBeam64 (some sampleSurface1200) sampleBeamHigh 0 30 sampleRngTop).1.x = 300 ∧
    ((0 % 3 : Nat) : ℚ) * (sampleSurface1200.width / 3) +
      3 * (sampleSurface1200.width / 3) / 4 = 300 ∧
    sampleRng.get 0 = 0 ∧
    (resetBeam64 (some sampleSurface1000) sampleBeamHigh 2 30 sampleRng).1.x <
      ((2 % 3 : Nat) : ℚ) * (sampleSurface1000.width / 3) + sampleSurface1000.width / 3 / 4 := by
  refine ⟨?_, ?_, ?_, ?_⟩ <;> decide!

/-- C22 (counterexample): on a surface of height 150, for the speed that is
the binary64 value of `0.725`, the frame of the claim is
`floor((3.5*150 + 200)/s) + 1 = 1001`; as the engine computes `y -= speed`, the
test of line 193 fails in frame 999 and holds in frame 1000, so the beam is
recycled one frame earlier. -/
theorem recycle_frame_binary64 :
    sampleBeam725.y = 150 + 100 ∧ sampleBeam725.length = 2.5 * 150 ∧
    0.5 ≤ sampleBeam725.speed ∧ sampleBeam725.speed < 0.9 ∧
    recycleFrame (150 : ℚ) sampleBeam725.speed = 1001 ∧
    offTop64 (ascendN64 999 sampleBeam725) = false ∧
    offTop64 (ascendN64 1000 sampleBeam725) = true := by
  refine ⟨?_, ?_, ?_, ?_, ?_, ?_, ?_⟩ <;> decide!

end BackgroundBeams
